import Mathlib

/-!
Verification of the mastery/progression engine of the AI-tutor repository.

The definitions below are a shallow embedding of the Python sources:
`src/agents/student_profile.py`, `src/agents/question_picker.py` and
`src/agents/mastery_agent.py`.  Python floats are modelled as rationals
(`ℚ`, exact arithmetic), Python dicts as insertion-ordered association
lists, the external LLM collaborators (Answer Grader, Mastery Estimator)
as `Except`-valued inputs, and `random.choice(xs)` as `xs[r % len xs]`
for an arbitrary natural number `r`.  Numeric literals such as `0.80`
are written with `mkRat` so that concrete instances reduce in the kernel.
-/

/-- `str.lower()` of Python, restricted to the ASCII strings the engine uses. -/
def strLower (s : String) : String := String.mk (s.data.map Char.toLower)

/-- Python `a in b` on a list of characters: `needle` starts at the head. -/
def charsLeads : List Char → List Char → Bool
  | [], _ => true
  | _ :: _, [] => false
  | a :: as, b :: bs => a == b && charsLeads as bs

/-- Python `a in b` substring test on character lists. -/
def charsOccurs (needle : List Char) : List Char → Bool
  | [] => charsLeads needle []
  | b :: bs => charsLeads needle (b :: bs) || charsOccurs needle bs

/-- Python substring containment `a in b` on strings. -/
def strIn (a b : String) : Bool := charsOccurs a.data b.data

/-- An insertion-ordered dictionary with string keys, as Python dicts are. -/
abbrev Dict (α : Type) := List (String × α)

/-- `d.get(k)`: first value stored under key `k`. -/
def alGet {α : Type} : Dict α → String → Option α
  | [], _ => none
  | (k', v') :: t, k => if k' == k then some v' else alGet t k

/-- `d[k] = v`: replace the value kept at `k` in place, or append a new key. -/
def alSet {α : Type} : Dict α → String → α → Dict α
  | [], k, v => [(k, v)]
  | (k', v') :: t, k, v => if k' == k then (k, v) :: t else (k', v') :: alSet t k v

/-- Case-insensitive dictionary lookup, as in
`QuestionPickerAgent.get_next_question` (question_picker.py lines 129-132). -/
def alGetCI {α : Type} : Dict α → String → Option α
  | [], _ => none
  | (k', v') :: t, k =>
    if strLower k' == strLower k then some v' else alGetCI t k

/-- Stable insertion keeping `y` before `x` whenever `keep y x`;
`sortStable` below models Python's stable `sorted`/`list.sort`. -/
def insStable {α : Type} (keep : α → α → Bool) : List α → α → List α
  | [], x => [x]
  | y :: t, x => if keep y x then y :: insStable keep t x else x :: y :: t

/-- Stable sort: the relation `keep y x` says an earlier element `y` stays
in front of a later element `x`. -/
def sortStable {α : Type} (keep : α → α → Bool) (l : List α) : List α :=
  l.foldl (insStable keep) []

/-- The 0.80 mastery threshold shared by all three agents. -/
def masteryThreshold : ℚ := mkRat 4 5

/-!  ## Student profile data (student_profile.py)  -/

/-- One value of `session_data["mastery_tracking"]["concepts"]`. -/
structure ConceptEntry where
  mastery_score : ℚ
  attempts : ℕ
  last_updated : String
  deriving Repr, DecidableEq

/-- One value of `session_data["mastery_tracking"]["subtopics"]`. -/
structure SubtopicEntry where
  mastery_score : ℚ
  attempts : ℕ
  mastery_achieved : Bool
  last_updated : String
  deriving Repr, DecidableEq

/-- One value of `session_data["weak_concepts"]`. -/
structure WeakConceptEntry where
  occurrences : ℕ
  first_seen : String
  last_seen : String
  severity : String
  deriving Repr, DecidableEq

/-- `session_data["mastery_tracking"]`. -/
structure MasteryTracking where
  concepts : Dict ConceptEntry
  subtopics : Dict SubtopicEntry
  overall_mastery : ℚ
  deriving Repr, DecidableEq

/-- The freshly initialised tracking dict (student_profile.py lines 44-48). -/
def emptyMasteryTracking : MasteryTracking :=
  { concepts := [], subtopics := [], overall_mastery := 0 }

/-- The parts of `session_data` the engine mutates. -/
structure SessionData where
  mastery_tracking : MasteryTracking
  weak_concepts : Dict WeakConceptEntry
  concept_gaps : List String
  deriving Repr, DecidableEq

/-- Session data at the start of a session (student_profile.py lines 40-51). -/
def emptySessionData : SessionData :=
  { mastery_tracking := emptyMasteryTracking, weak_concepts := [], concept_gaps := [] }

/-- The per-concept running-average update of
`StudentProfileAgent._update_mastery_tracking` (lines 212-229):
a fresh key stores the incoming score with one attempt; an existing key is
averaged as `(prev*prevAttempts + score)/(prevAttempts+1)`. -/
def updateConceptEntry (prev : Option ConceptEntry) (score : ℚ) (now : String) :
    ConceptEntry :=
  match prev with
  | none => { mastery_score := score, attempts := 1, last_updated := now }
  | some e =>
      { mastery_score := (e.mastery_score * e.attempts + score) / ((e.attempts : ℚ) + 1)
        attempts := e.attempts + 1
        last_updated := now }

/-- The per-subtopic update of `StudentProfileAgent._update_mastery_tracking`
(lines 231-255): first attempt never marks mastery; afterwards the score is
the running average and `mastery_achieved` is the assessment's flag gated by
the three-attempt floor. -/
def updateSubtopicEntry (prev : Option SubtopicEntry) (incoming : ℚ)
    (assessAchieved : Bool) (now : String) : SubtopicEntry :=
  match prev with
  | none =>
      { mastery_score := incoming, attempts := 1, mastery_achieved := false
        last_updated := now }
  | some e =>
      { mastery_score := (e.mastery_score * e.attempts + incoming) / ((e.attempts : ℚ) + 1)
        attempts := e.attempts + 1
        mastery_achieved := assessAchieved && decide (3 ≤ e.attempts + 1)
        last_updated := now }

/-- `StudentProfileAgent._update_mastery_tracking` (lines 197-263).
`subtopicName` is `question_data["cluster_info"]["subtopic_name"]`;
`conceptMastery`, `subtopicMastery` and `assessAchieved` are the
`concept_mastery`, `subtopic_mastery` and `mastery_achieved` fields of the
mastery assessment.  `overall_mastery` is overwritten with the updated
subtopic's score (lines 257-260). -/
def updateMasteryTracking (s : SessionData) (subtopicName : String)
    (conceptMastery : Dict ℚ) (subtopicMastery : ℚ) (assessAchieved : Bool)
    (now : String) : SessionData :=
  let concepts' := conceptMastery.foldl
    (fun acc kv => alSet acc kv.1 (updateConceptEntry (alGet acc kv.1) kv.2 now))
    s.mastery_tracking.concepts
  let entry := updateSubtopicEntry (alGet s.mastery_tracking.subtopics subtopicName)
    subtopicMastery assessAchieved now
  let subtopics' := alSet s.mastery_tracking.subtopics subtopicName entry
  { s with mastery_tracking :=
      { concepts := concepts', subtopics := subtopics'
        overall_mastery := entry.mastery_score } }

/-- `StudentProfileAgent._track_weak_concepts` (lines 276-301): weak concepts
gain an occurrence counter and timestamps, missing concepts accumulate into a
deduplicated gap list. -/
def trackWeakConcepts (s : SessionData) (weak missing : List String)
    (now : String) : SessionData :=
  let weak' := weak.foldl
    (fun acc c =>
      match alGet acc c with
      | none => alSet acc c
          { occurrences := 1, first_seen := now, last_seen := now, severity := "high" }
      | some e => alSet acc c { e with occurrences := e.occurrences + 1, last_seen := now })
    s.weak_concepts
  let gaps' := missing.foldl
    (fun acc c => if acc.contains c then acc else acc ++ [c]) s.concept_gaps
  { s with weak_concepts := weak', concept_gaps := gaps' }

/-- `StudentProfileAgent.reset_subtopic_mastery` (lines 321-354): clears every
concept score, zeroes the named subtopic, zeroes overall mastery and empties
the weak-concept and concept-gap stores. -/
def resetSubtopicMastery (s : SessionData) (subtopic : String) (now : String) :
    SessionData :=
  { mastery_tracking :=
      { concepts := []
        subtopics := alSet s.mastery_tracking.subtopics subtopic
          { mastery_score := 0, attempts := 0, mastery_achieved := false
            last_updated := now }
        overall_mastery := 0 }
    weak_concepts := []
    concept_gaps := [] }

/-!  ## Knowledge graph, problems and the question picker (question_picker.py)  -/

/-- One cluster record of the knowledge-graph file. -/
structure Cluster where
  cluster_id : String
  cluster_name : String
  description : String
  complexity_level : ℕ
  learning_objective : String
  skills_tested : List String
  deriving Repr, DecidableEq

/-- One subtopic record of the knowledge-graph file. -/
structure SubtopicNode where
  subtopic_id : String
  subtopic_name : String
  description : String
  clusters : List Cluster
  deriving Repr, DecidableEq

/-- One topic record of the knowledge-graph file. -/
structure TopicNode where
  topic_name : String
  subtopics : List SubtopicNode
  deriving Repr, DecidableEq

/-- The `topics` list of the knowledge-graph file. -/
abbrev KnowledgeGraph := List TopicNode

/-- One record of the problem bank. -/
structure Problem where
  problem_id : String
  cluster_id : String
  topic_id : String
  description : String
  difficulty : String
  concepts : List String
  brief_summary : String
  deriving Repr, DecidableEq

/-- The flattened cluster dict built by
`QuestionPickerAgent._get_clusters_for_subtopic` (lines 211-229). -/
structure ClusterInfo where
  cluster_id : String
  cluster_name : String
  description : String
  complexity_level : ℕ
  learning_objective : String
  skills_tested : List String
  subtopic_name : String
  topic_name : String
  deriving Repr, DecidableEq

/-- All subtopic nodes of the graph in file order. -/
def subtopicNodes (kg : KnowledgeGraph) : List SubtopicNode :=
  kg.foldr (fun t acc => t.subtopics ++ acc) []

/-- All subtopic names of the graph in file order, as collected by
`QuestionPickerAgent._get_next_subtopic` (lines 269-275). -/
def kgNames (kg : KnowledgeGraph) : List String :=
  (subtopicNodes kg).map (·.subtopic_name)

/-- `QuestionPickerAgent._get_clusters_for_subtopic` (lines 211-229):
every cluster of every subtopic whose name matches case-insensitively. -/
def getClustersForSubtopic (kg : KnowledgeGraph) (subtopicName : String) :
    List ClusterInfo :=
  kg.foldr (fun topic acc =>
    topic.subtopics.foldr (fun sub acc' =>
      if strLower sub.subtopic_name == strLower subtopicName then
        sub.clusters.map (fun c =>
          { cluster_id := c.cluster_id, cluster_name := c.cluster_name
            description := c.description, complexity_level := c.complexity_level
            learning_objective := c.learning_objective
            skills_tested := c.skills_tested
            subtopic_name := sub.subtopic_name
            topic_name := topic.topic_name }) ++ acc'
      else acc') acc) []

/-- `QuestionPickerAgent._get_problems_for_cluster` (lines 38-40). -/
def getProblemsForCluster (problems : List Problem) (clusterId : String) :
    List Problem :=
  problems.filter (fun p => p.cluster_id == clusterId)

/-- The four complexity bands of `_select_cluster_by_mastery`
(question_picker.py lines 244-255), hoisted into one predicate: score below
0.40 keeps complexity at most 2, below 0.60 keeps 2-3, below 0.80 keeps 3-4,
otherwise at least 4. -/
def bandPred (masteryScore : ℚ) (c : ClusterInfo) : Bool :=
  if masteryScore < mkRat 2 5 then decide (c.complexity_level ≤ 2)
  else if masteryScore < mkRat 3 5 then
    decide (2 ≤ c.complexity_level) && decide (c.complexity_level ≤ 3)
  else if masteryScore < mkRat 4 5 then
    decide (3 ≤ c.complexity_level) && decide (c.complexity_level ≤ 4)
  else decide (4 ≤ c.complexity_level)

/-- `QuestionPickerAgent._select_cluster_by_mastery` (lines 231-262): sort the
clusters by complexity, keep the band picked by `bandPred` on the running
mastery score, fall back to every cluster when the band is empty, and choose
at random inside it; `r` stands for the `random.choice` draw. -/
def selectClusterByMastery (clusters : List ClusterInfo) (masteryScore : ℚ)
    (r : ℕ) : Option ClusterInfo :=
  if clusters.isEmpty then none
  else
    let sorted := sortStable
      (fun y x => decide (y.complexity_level ≤ x.complexity_level)) clusters
    let target := sorted.filter (bandPred masteryScore)
    let target := if target.isEmpty then sorted else target
    target.get? (r % target.length)

/-- `QuestionPickerAgent._extract_priority_concepts` (lines 290-305): the three
most frequent weak concepts, the first three concept gaps, duplicates removed.
(Python's `list(set(..))` has an unspecified order; deduplication keeping first
occurrences is one admissible order and no claim depends on it.) -/
def extractPriorityConcepts (weakConcepts : Dict WeakConceptEntry)
    (conceptGaps : List String) : List String :=
  let ranked := sortStable
    (fun y x => decide (x.2.occurrences ≤ y.2.occurrences)) weakConcepts
  (((ranked.take 3).map (·.1)) ++ conceptGaps.take 3).dedup

/-- Python tuple comparison `(a1,b1) >= (a2,b2)` on pairs of naturals. -/
def lexGE (a b : ℕ × ℕ) : Bool :=
  decide (b.1 < a.1) || (a.1 == b.1 && decide (b.2 ≤ a.2))

/-- `QuestionPickerAgent._select_cluster_by_concept_coverage` (lines 307-336):
with priority concepts present, count per cluster how many of them match a
tested skill by case-insensitive bidirectional substring containment, sort by
(coverage, number of skills) descending, and keep the best cluster when it
covers anything; otherwise fall back to the mastery-band selection.
`weakCoverageOf` is the per-cluster count of lines 322-324. -/
def weakCoverageOf (priorityConcepts : List String) (cluster : ClusterInfo) : ℕ :=
  (priorityConcepts.filter (fun concept =>
    cluster.skills_tested.any (fun skill =>
      strIn (strLower concept) (strLower skill) ||
      strIn (strLower skill) (strLower concept)))).length

/-- The `(cluster, coverage_score, len(skills_tested))` triples of lines
318-325, sorted descending by `(coverage, skills)` as at line 328. -/
def rankedClusterScores (priorityConcepts : List String)
    (clusters : List ClusterInfo) : List (ClusterInfo × ℕ × ℕ) :=
  sortStable (fun y x => lexGE (y.2.1, y.2.2) (x.2.1, x.2.2))
    (clusters.map (fun cluster =>
      (cluster, weakCoverageOf priorityConcepts cluster,
       cluster.skills_tested.length)))

def selectClusterByConceptCoverage (clusters : List ClusterInfo)
    (masteryScore : ℚ) (priorityConcepts : List String) (r : ℕ) :
    Option ClusterInfo :=
  if clusters.isEmpty then none
  else if !priorityConcepts.isEmpty then
    match rankedClusterScores priorityConcepts clusters with
    | [] => selectClusterByMastery clusters masteryScore r
    | best :: _ =>
      if 0 < best.2.1 then some best.1
      else selectClusterByMastery clusters masteryScore r
  else selectClusterByMastery clusters masteryScore r

/-- `QuestionPickerAgent._select_problem_by_concept_richness` (lines 338-377):
without priority concepts pick at random; otherwise score each problem by
`problemRichness` — `3 * weakConceptsMentioned + clusterSkillsMentioned`
against its lowered summary (lines 356-366) — and pick at random among the
top three. -/
def problemRichness (priorityConcepts : List String) (cluster : ClusterInfo)
    (p : Problem) : ℕ :=
  (priorityConcepts.filter
    (fun concept => strIn (strLower concept) (strLower p.brief_summary))).length * 3 +
  (cluster.skills_tested.filter
    (fun skill => strIn (strLower skill) (strLower p.brief_summary))).length

/-- The top three problems by richness score (lines 354-373): stable
descending sort of `(problem, score)` pairs, first three, projected. -/
def topRichProblems (priorityConcepts : List String) (cluster : ClusterInfo)
    (problems : List Problem) : List Problem :=
  (((sortStable (fun y x => decide (x.2 ≤ y.2))
      (problems.map (fun p => (p, problemRichness priorityConcepts cluster p)))).take 3).map (·.1))

def selectProblemByConceptRichness (problems : List Problem)
    (priorityConcepts : List String) (cluster : ClusterInfo) (r : ℕ) :
    Option Problem :=
  if problems.isEmpty then none
  else if priorityConcepts.isEmpty then problems.get? (r % problems.length)
  else if (topRichProblems priorityConcepts cluster problems).isEmpty then
    problems.get? 0
  else
    (topRichProblems priorityConcepts cluster problems).get?
      (r % (topRichProblems priorityConcepts cluster problems).length)

/-- The per-subtopic test of `_get_next_subtopic` (lines 279-285): a subtopic
counts as unmastered when its tracked state is neither flagged mastered nor at
or above the threshold score (missing entries count as fresh). -/
def unmasteredB (subtopicMastery : Dict SubtopicEntry) (name : String) : Bool :=
  !(((alGet subtopicMastery name).map (·.mastery_achieved)).getD false) &&
    decide ((((alGet subtopicMastery name).map (·.mastery_score)).getD 0) < masteryThreshold)

/-- `QuestionPickerAgent._get_next_subtopic` (lines 264-288): walk every
subtopic name in graph order and return the first unmastered one. -/
def getNextSubtopic (kg : KnowledgeGraph) (subtopicMastery : Dict SubtopicEntry) :
    Option String :=
  ((kgNames kg).filter (unmasteredB subtopicMastery)).head?

/-- The question payload dict returned by the picker. -/
structure PickResult where
  completed : Bool
  message : String := ""
  cluster_info : Option ClusterInfo := none
  question : String := ""
  problem_id : Option String := none
  deriving Repr, DecidableEq

/-- The mutable cursor state of `QuestionPickerAgent`. -/
structure PickerState where
  current_subtopic : Option String
  asked_problems : List String
  deriving Repr, DecidableEq

/-- Lines 166-209 of `QuestionPickerAgent.get_next_question`: enumerate the
clusters of `name`, select a cluster, drop problems already asked (allowing
repeats when every problem of the cluster was asked), select a problem and
record it as asked.  `none` models the `TypeError` Python would raise by
subscripting a `None` cluster or problem (it never fires: selection is total
on a non-empty cluster list). -/
def pickFromSubtopic (kg : KnowledgeGraph) (problems : List Problem)
    (name : String) (asked : List String) (masteryScore : ℚ)
    (priorityConcepts : List String) (r1 r2 : ℕ) :
    Option (List String × PickResult) :=
  let clusters := getClustersForSubtopic kg name
  if clusters.isEmpty then
    some (asked, { completed := true
                   message := "No clusters found for subtopic " ++ name })
  else
    match selectClusterByConceptCoverage clusters masteryScore priorityConcepts r1 with
    | none => none
    | some cluster =>
      let clusterProblems := getProblemsForCluster problems cluster.cluster_id
      let available := clusterProblems.filter
        (fun p => !(asked.contains p.problem_id))
      let available := if available.isEmpty then clusterProblems else available
      if available.isEmpty then
        some (asked, { completed := true
                       message := "No problems available for cluster " ++ cluster.cluster_id })
      else
        match selectProblemByConceptRichness available priorityConcepts cluster r2 with
        | none => none
        | some p =>
          some ((if asked.contains p.problem_id then asked else asked ++ [p.problem_id]),
                { completed := false, cluster_info := some cluster
                  question := p.description, problem_id := some p.problem_id })

/-- `QuestionPickerAgent.get_next_question` (lines 98-209).  The student
profile argument is split into the fields the code reads:
`masteryScores` (`None` when the profile holds no `subtopics` dict yet),
`weakConcepts` and `conceptGaps`.  `session` is the attached
`StudentProfileAgent`'s session data, reset when the cursor advances;
`r1`, `r2` are the two `random.choice` draws.  `none` models an uncaught
Python exception (never reached, see `pickFromSubtopic`). -/
def getNextQuestion (kg : KnowledgeGraph) (problems : List Problem)
    (userTopic : String) (ps : PickerState) (session : SessionData)
    (masteryScores : Option MasteryTracking)
    (weakConcepts : Dict WeakConceptEntry) (conceptGaps : List String)
    (now : String) (r1 r2 : ℕ) :
    Option (PickerState × SessionData × PickResult) :=
  let tracking := masteryScores.getD emptyMasteryTracking
  let subtopicMastery := tracking.subtopics
  let priorityConcepts := extractPriorityConcepts weakConcepts conceptGaps
  let current := ps.current_subtopic.getD userTopic
  let asked := if ps.current_subtopic.isSome then ps.asked_problems else []
  let data := alGetCI subtopicMastery current
  let currentMasteryScore := ((data.map (·.mastery_score)).getD 0)
  let masteryAchieved := ((data.map (·.mastery_achieved)).getD false)
  let attempts := ((data.map (·.attempts)).getD 0)
  if masteryAchieved && decide (3 ≤ attempts) then
    match getNextSubtopic kg subtopicMastery with
    | some next =>
      let session' := resetSubtopicMastery session next now
      (pickFromSubtopic kg problems next [] currentMasteryScore
        priorityConcepts r1 r2).map
        (fun ar => ({ current_subtopic := some next, asked_problems := ar.1 },
                    session', ar.2))
    | none =>
      some ({ current_subtopic := some current, asked_problems := asked },
            session,
            { completed := true
              message := "Congratulations! You\x27ve mastered all subtopics! 🎉" })
  else
    (pickFromSubtopic kg problems current asked currentMasteryScore
      priorityConcepts r1 r2).map
      (fun ar => ({ current_subtopic := some current, asked_problems := ar.1 },
                  session, ar.2))

/-!  ## Knowledge-graph mastery agent (mastery_agent.py)  -/

/-- `QuestionAttempt` (mastery_agent.py lines 24-36). -/
structure QuestionAttempt where
  question_id : String
  question_text : String
  difficulty : String
  concepts_tested : List String
  user_answer : String
  correct_answer : String
  is_correct : Bool
  timestamp : String
  subtopic : String
  explanation : Option String := none
  deriving Repr, DecidableEq

/-- `SubtopicMasteryState` (mastery_agent.py lines 38-51). -/
structure SubtopicMasteryState where
  subtopic_id : String
  subtopic_name : String
  mastery_probability : ℚ
  total_attempts : ℕ
  correct_attempts : ℕ
  attempts_history : List QuestionAttempt
  concepts_encountered : List String := []
  concepts_mastered : List String := []
  concepts_struggling : List String := []
  mastery_achieved : Bool := false
  completed_at : Option String := none
  deriving Repr, DecidableEq

/-- The mutable progression state of `KnowledgeGraphMasteryAgent`:
the ordered subtopic sequence extracted from the knowledge graph, the
per-subtopic mastery states and the current-subtopic cursor. -/
structure MasteryAgentState where
  subtopic_sequence : List SubtopicNode
  subtopic_mastery_states : Dict SubtopicMasteryState
  current_subtopic_index : ℕ
  current_subtopic_id : Option String
  deriving Repr, DecidableEq

/-- `KnowledgeGraphMasteryAgent.advance_to_next_subtopic` (lines 236-254):
when the current subtopic's probability reaches the threshold, flag it
mastered, stamp `completed_at`, and move the index one step; the boolean
result says whether a next subtopic exists.  `none` models the `KeyError`
Python would raise when `current_subtopic_id` has no mastery state. -/
def advanceToNextSubtopic (ag : MasteryAgentState) (now : String) :
    Option (MasteryAgentState × Bool) :=
  match ag.current_subtopic_id with
  | none => none
  | some cid =>
    match alGet ag.subtopic_mastery_states cid with
    | none => none
    | some st =>
      if masteryThreshold ≤ st.mastery_probability then
        let st' := { st with mastery_achieved := true, completed_at := some now }
        let states' := alSet ag.subtopic_mastery_states cid st'
        let idx' := ag.current_subtopic_index + 1
        match ag.subtopic_sequence.get? idx' with
        | some nextSub =>
          some ({ ag with subtopic_mastery_states := states'
                          current_subtopic_index := idx'
                          current_subtopic_id := some nextSub.subtopic_id }, true)
        | none =>
          some ({ ag with subtopic_mastery_states := states'
                          current_subtopic_index := idx' }, false)
      else some (ag, false)

/-- The structured judgment of the external Mastery Estimator, as consumed by
`assess_mastery_with_llm`: `mastery_probability` is required (a missing key
raises inside the `try` block, i.e. is the `Except.error` case), the other
fields are advisory. -/
structure EstimatorOutput where
  mastery_probability : ℚ
  feedback : Option String := none
  confidence_level : Option String := none
  mastery_achieved : Option Bool := none
  deriving Repr, DecidableEq

/-- The assessment dict returned by `assess_mastery_with_llm`. -/
structure MasteryAssessment where
  mastery_probability : ℚ
  feedback : Option String := none
  confidence_level : Option String := none
  mastery_achieved : Bool
  deriving Repr, DecidableEq

/-- `KnowledgeGraphMasteryAgent.assess_mastery_with_llm` (lines 344-424).
`ctxPrep` is the context-building step (lines 359-362) and `estimator` the
LLM call (lines 377-386), both `Except`-valued; every exception they raise is
caught inside the function.  The returned triple is the state after the call
(the successful path stores the estimate in `mastery_probability`, line 389),
the assessment dict, and whether the external estimator was invoked.
`none` models the `KeyError` on a missing current mastery state. -/
def assessMasteryWithLLM (ag : MasteryAgentState)
    (ctxPrep : Except String (String × String × String))
    (estimator : Except String EstimatorOutput) :
    Option (MasteryAgentState × MasteryAssessment × Bool) :=
  match ag.current_subtopic_id with
  | none => none
  | some cid =>
    match alGet ag.subtopic_mastery_states cid with
    | none => none
    | some st =>
      if st.attempts_history.isEmpty then
        some (ag,
          { mastery_probability := 0
            feedback := some "No attempts recorded yet. Begin with foundational concepts."
            confidence_level := some "low"
            mastery_achieved := false }, false)
      else
        match ctxPrep with
        | Except.error _ =>
          some (ag,
            { mastery_probability :=
                (st.correct_attempts : ℚ) / (max st.total_attempts 1 : ℕ) * mkRat 4 5
              feedback := some "Error preparing assessment context. Using basic calculation. Continue practicing."
              confidence_level := some "low"
              mastery_achieved := false }, false)
        | Except.ok _ =>
          match estimator with
          | Except.error _ =>
            some (ag,
              { mastery_probability :=
                  (if 0 < st.total_attempts then
                    (st.correct_attempts : ℚ) / (st.total_attempts : ℚ) else 0) * mkRat 4 5
                feedback := some "System assessment temporarily unavailable. Continue practicing."
                confidence_level := some "low"
                mastery_achieved := false }, true)
          | Except.ok out =>
            let st' := { st with mastery_probability := out.mastery_probability }
            let states' := alSet ag.subtopic_mastery_states cid st'
            some ({ ag with subtopic_mastery_states := states' },
              { mastery_probability := out.mastery_probability
                feedback := out.feedback
                confidence_level := out.confidence_level
                mastery_achieved := decide (masteryThreshold ≤ st'.mastery_probability) },
              true)

/-!  ## Answer grading (mastery_agent.py `_grade_sql_answer`)  -/

/-- The raw dict returned by the external Answer Grader; every field may be
missing. -/
structure GraderRaw where
  is_correct : Option Bool := none
  score : Option ℕ := none
  feedback : Option String := none
  explanation : Option String := none
  weak_concepts : Option (List String) := none
  missing_concepts : Option (List String) := none
  concept_understanding : Option (Dict ℚ) := none
  deriving Repr, DecidableEq

/-- The normalised grading dict `_grade_sql_answer` returns. -/
structure GradingResult where
  is_correct : Bool
  score : ℕ
  feedback : String
  explanation : String
  weak_concepts : List String
  missing_concepts : List String
  concept_understanding : Dict ℚ
  deriving Repr, DecidableEq

/-- Default string of line 282. -/
def defaultFeedback : String := "No feedback provided."

/-- Default string of line 284. -/
def defaultExplanation : String := "No explanation provided."

/-- The fixed list of "don't know" phrases of line 258. -/
def dontKnowPhrases : List String :=
  ["i dont know", "idk", "skip", "dont know", "i don\x27t know"]

/-- `KnowledgeGraphMasteryAgent._grade_sql_answer` (lines 256-303): an empty
answer or a "don't know" phrase short-circuits grading; otherwise the external
grader is invoked (`Except`-valued) and its output is normalised with the
documented defaults, a grader exception producing the unable-to-grade result.
The boolean records whether the external grader was called. -/
def gradeSqlAnswer (graderCall : Except String GraderRaw) (userAnswer : String) :
    GradingResult × Bool :=
  if userAnswer == "" || dontKnowPhrases.contains (strLower userAnswer) then
    ({ is_correct := false, score := 0
       feedback := "No valid answer provided."
       explanation := "Please attempt to write a SQL query."
       weak_concepts := [], missing_concepts := []
       concept_understanding := [] }, false)
  else
    match graderCall with
    | Except.error e =>
      ({ is_correct := false, score := 0
         feedback := "Unable to grade automatically."
         explanation := e
         weak_concepts := [], missing_concepts := []
         concept_understanding := [] }, true)
    | Except.ok raw =>
      ({ is_correct := raw.is_correct.getD false
         score := raw.score.getD (if raw.is_correct.getD false then 50 else 0)
         feedback := raw.feedback.getD defaultFeedback
         explanation := raw.explanation.getD defaultExplanation
         weak_concepts := raw.weak_concepts.getD []
         missing_concepts := raw.missing_concepts.getD []
         concept_understanding := raw.concept_understanding.getD [] }, true)


/-!  ## Theorems  -/

/-- The short-circuit grading result of lines 259-267. -/
def noAnswerResult : GradingResult :=
  { is_correct := false, score := 0
    feedback := "No valid answer provided."
    explanation := "Please attempt to write a SQL query."
    weak_concepts := [], missing_concepts := []
    concept_understanding := [] }

/-- C6: for every question, an empty user answer or one matching a fixed
"don't know" phrase (case-insensitively) short-circuits grading: the result is
incorrect with score 0, the fixed feedback and explanation strings, empty
weak- and missing-concept lists, and the external grader is not called
(the boolean component is `false`, and the result does not depend on the
grader argument at all). -/
theorem c6_no_answer_short_circuits_grading
    (graderCall : Except String GraderRaw) (userAnswer : String)
    (h : userAnswer = "" ∨ dontKnowPhrases.contains (strLower userAnswer) = true) :
    gradeSqlAnswer graderCall userAnswer = (noAnswerResult, false) := by
  rcases h with h | h
  · subst h; rfl
  · have h' : strLower userAnswer ∈ dontKnowPhrases := by simpa using h
    simp [gradeSqlAnswer, h', noAnswerResult]

/-- Witness for C6 at the spec's example answer `"idk"`, with a grader that
would even raise: the fixed incorrect result is returned and no call is made. -/
theorem c6_no_answer_short_circuits_grading_witness :
    (("idk" : String) = "" ∨ dontKnowPhrases.contains (strLower "idk") = true) ∧
    gradeSqlAnswer (Except.error "boom") "idk" = (noAnswerResult, false) :=
  ⟨Or.inr (by decide),
   c6_no_answer_short_circuits_grading (Except.error "boom") "idk" (Or.inr (by decide))⟩

/-- The early-return assessment of lines 350-356. -/
def noAttemptsAssessment : MasteryAssessment :=
  { mastery_probability := 0
    feedback := some "No attempts recorded yet. Begin with foundational concepts."
    confidence_level := some "low"
    mastery_achieved := false }

/-- C10: with no recorded attempts for the current subtopic, the assessment
returns probability 0, confidence "low" and `mastery_achieved = false`,
leaves the agent state exactly as it was, and does not invoke the external
estimator (the invocation flag is `false` and the result is independent of
both external arguments). -/
theorem c10_no_attempts_assessment
    (ag : MasteryAgentState) (cid : String) (st : SubtopicMasteryState)
    (ctxPrep : Except String (String × String × String))
    (estimator : Except String EstimatorOutput)
    (hcid : ag.current_subtopic_id = some cid)
    (hst : alGet ag.subtopic_mastery_states cid = some st)
    (hemp : st.attempts_history = []) :
    assessMasteryWithLLM ag ctxPrep estimator = some (ag, noAttemptsAssessment, false) := by
  simp [assessMasteryWithLLM, hcid, hst, hemp, noAttemptsAssessment]

/-- A one-subtopic mastery state with an empty attempt history. -/
def exFreshState : SubtopicMasteryState :=
  { subtopic_id := "s1", subtopic_name := "INNER JOIN"
    mastery_probability := 0, total_attempts := 0, correct_attempts := 0
    attempts_history := [] }

/-- A mastery agent currently on the fresh subtopic `exFreshState`. -/
def exFreshAgent : MasteryAgentState :=
  { subtopic_sequence := [], subtopic_mastery_states := [("s1", exFreshState)]
    current_subtopic_index := 0, current_subtopic_id := some "s1" }

/-- Witness for C10 on a one-subtopic agent with an empty history. -/
theorem c10_no_attempts_assessment_witness :
    exFreshAgent.current_subtopic_id = some "s1" ∧
    alGet exFreshAgent.subtopic_mastery_states "s1" = some exFreshState ∧
    exFreshState.attempts_history = [] ∧
    assessMasteryWithLLM exFreshAgent (Except.error "ctx") (Except.error "est") =
      some (exFreshAgent, noAttemptsAssessment, false) :=
  ⟨rfl, by decide, rfl,
   c10_no_attempts_assessment exFreshAgent "s1" exFreshState
     (Except.error "ctx") (Except.error "est") rfl (by decide) rfl⟩

/-- C5: whatever exception the external Mastery Estimator raises, the
assessment catches it and returns the deterministic fallback
`(correct_attempts/total_attempts) * 0.8` with confidence "low" and
`mastery_achieved = false`, and the same fallback is returned when building
the estimator's input context fails; both paths return a value (`some …`),
so no exception escapes to the caller, and neither touches the stored state. -/
theorem c5_estimator_failure_fallback
    (ag : MasteryAgentState) (cid : String) (st : SubtopicMasteryState)
    (ctx : String × String × String) (ctxErr estErr : String)
    (estimator : Except String EstimatorOutput)
    (hcid : ag.current_subtopic_id = some cid)
    (hst : alGet ag.subtopic_mastery_states cid = some st)
    (hne : st.attempts_history ≠ [])
    (hpos : 1 ≤ st.total_attempts) :
    assessMasteryWithLLM ag (Except.ok ctx) (Except.error estErr) =
      some (ag,
        { mastery_probability :=
            (st.correct_attempts : ℚ) / (st.total_attempts : ℚ) * mkRat 4 5
          feedback := some "System assessment temporarily unavailable. Continue practicing."
          confidence_level := some "low"
          mastery_achieved := false }, true) ∧
    assessMasteryWithLLM ag (Except.error ctxErr) estimator =
      some (ag,
        { mastery_probability :=
            (st.correct_attempts : ℚ) / (st.total_attempts : ℚ) * mkRat 4 5
          feedback := some "Error preparing assessment context. Using basic calculation. Continue practicing."
          confidence_level := some "low"
          mastery_achieved := false }, false) := by
  have hempty : st.attempts_history.isEmpty = false := by
    simpa [List.isEmpty_iff] using hne
  have hmax : max st.total_attempts 1 = st.total_attempts := Nat.max_eq_left hpos
  have hlt : 0 < st.total_attempts := hpos
  constructor
  · simp [assessMasteryWithLLM, hcid, hst, hempty, hlt]
  · simp [assessMasteryWithLLM, hcid, hst, hempty, hmax]

/-- A recorded attempt used by the C5 witness state. -/
def exAttempt : QuestionAttempt :=
  { question_id := "q1", question_text := "q", difficulty := "easy"
    concepts_tested := [], user_answer := "a", correct_answer := ""
    is_correct := true, timestamp := "t0", subtopic := "s1" }

/-- A mastery state with two attempts, one of them correct. -/
def exHalfState : SubtopicMasteryState :=
  { subtopic_id := "s1", subtopic_name := "INNER JOIN"
    mastery_probability := 0, total_attempts := 2, correct_attempts := 1
    attempts_history := [exAttempt] }

/-- A mastery agent currently on `exHalfState`. -/
def exHalfAgent : MasteryAgentState :=
  { subtopic_sequence := [], subtopic_mastery_states := [("s1", exHalfState)]
    current_subtopic_index := 0, current_subtopic_id := some "s1" }

/-- Witness for C5: two attempts, one correct; the estimator-failure path
returns the fallback `1/2 * 0.8` with low confidence. -/
theorem c5_estimator_failure_fallback_witness :
    exHalfState.attempts_history ≠ [] ∧ 1 ≤ exHalfState.total_attempts ∧
    assessMasteryWithLLM exHalfAgent (Except.ok ("a", "b", "c")) (Except.error "down") =
      some (exHalfAgent,
        { mastery_probability :=
            (exHalfState.correct_attempts : ℚ) / (exHalfState.total_attempts : ℚ) * mkRat 4 5
          feedback := some "System assessment temporarily unavailable. Continue practicing."
          confidence_level := some "low"
          mastery_achieved := false }, true) :=
  ⟨by decide, by decide,
   (c5_estimator_failure_fallback exHalfAgent "s1" exHalfState ("a", "b", "c")
     "ctx" "down" (Except.error "x") rfl (by decide) (by decide) (by decide)).1⟩

/-- Iterated per-concept updates of a single key that starts unseen
(`none`), as `_update_mastery_tracking` performs them across calls. -/
def runConceptUpdates (now : String) (xs : List ℚ) : Option ConceptEntry :=
  xs.foldl (fun acc x => some (updateConceptEntry acc x now)) none

/-- Iterated per-subtopic updates of a single key that starts unseen; each
step carries the incoming score and the assessment's achievement flag. -/
def runSubtopicUpdates (now : String) (ys : List (ℚ × Bool)) : Option SubtopicEntry :=
  ys.foldl (fun acc y => some (updateSubtopicEntry acc y.1 y.2 now)) none

/-- Accumulation invariant of the per-concept running mean: folding further
scores onto an existing entry adds them to the weighted total and counts
one attempt each. -/
theorem conceptFold_invariant (now : String) :
    ∀ (xs : List ℚ) (e₀ : ConceptEntry),
    ∃ e, xs.foldl (fun acc x => some (updateConceptEntry acc x now)) (some e₀) = some e ∧
      e.attempts = e₀.attempts + xs.length ∧
      e.mastery_score * e.attempts = e₀.mastery_score * e₀.attempts + xs.sum := by
  intro xs
  induction xs with
  | nil => intro e₀; exact ⟨e₀, rfl, by simp, by simp⟩
  | cons x t ih =>
    intro e₀
    obtain ⟨e, he, hatt, hscore⟩ := ih (updateConceptEntry (some e₀) x now)
    refine ⟨e, he, ?_, ?_⟩
    · simp [updateConceptEntry] at hatt
      simp [hatt]; ring
    · rw [hscore]
      have hden : ((e₀.attempts : ℚ) + 1) ≠ 0 := by positivity
      simp only [updateConceptEntry]
      push_cast
      rw [div_mul_cancel₀ _ hden]
      simp; ring

/-- Same accumulation invariant for the per-subtopic running mean. -/
theorem subtopicFold_invariant (now : String) :
    ∀ (ys : List (ℚ × Bool)) (e₀ : SubtopicEntry),
    ∃ e, ys.foldl (fun acc y => some (updateSubtopicEntry acc y.1 y.2 now)) (some e₀) = some e ∧
      e.attempts = e₀.attempts + ys.length ∧
      e.mastery_score * e.attempts = e₀.mastery_score * e₀.attempts + (ys.map Prod.fst).sum := by
  intro ys
  induction ys with
  | nil => intro e₀; exact ⟨e₀, rfl, by simp, by simp⟩
  | cons y t ih =>
    intro e₀
    obtain ⟨e, he, hatt, hscore⟩ := ih (updateSubtopicEntry (some e₀) y.1 y.2 now)
    refine ⟨e, he, ?_, ?_⟩
    · simp [updateSubtopicEntry] at hatt
      simp [hatt]; ring
    · rw [hscore]
      have hden : ((e₀.attempts : ℚ) + 1) ≠ 0 := by positivity
      simp only [updateSubtopicEntry]
      push_cast
      rw [div_mul_cancel₀ _ hden]
      simp; ring

/-- C7: starting from an unseen key, the running-mean update
`new = (prev*prevAttempts + incoming)/(prevAttempts+1)` with its incremented
attempt counter makes the score after `n` updates the arithmetic mean of the
`n` incoming values — for the per-concept map and the per-subtopic map alike —
and in particular the updates 0.2, 0.6, 1.0 yield score 0.6 with attempts 3. -/
theorem c7_running_mean_is_arithmetic_mean (now : String) :
    (∀ xs : List ℚ, xs ≠ [] →
      ∃ e, runConceptUpdates now xs = some e ∧
        e.attempts = xs.length ∧ e.mastery_score = xs.sum / (xs.length : ℚ)) ∧
    (∀ ys : List (ℚ × Bool), ys ≠ [] →
      ∃ e, runSubtopicUpdates now ys = some e ∧
        e.attempts = ys.length ∧
        e.mastery_score = (ys.map Prod.fst).sum / (ys.length : ℚ)) ∧
    runConceptUpdates now [mkRat 1 5, mkRat 3 5, 1] =
      some { mastery_score := mkRat 3 5, attempts := 3, last_updated := now } := by
  refine ⟨?_, ?_, ?_⟩
  · rintro (_ | ⟨x, t⟩) hne
    · exact absurd rfl hne
    · obtain ⟨e, he, hatt, hscore⟩ :=
        conceptFold_invariant now t (updateConceptEntry none x now)
      have hatt' : e.attempts = t.length + 1 := by
        simpa [updateConceptEntry, Nat.add_comm] using hatt
      refine ⟨e, ?_, ?_, ?_⟩
      · simpa [runConceptUpdates] using he
      · simpa [Nat.add_comm] using hatt'
      · have hlen : ((t.length : ℚ) + 1) ≠ 0 := by positivity
        have : e.mastery_score * ((t.length : ℚ) + 1) = x + t.sum := by
          have := hscore
          rw [hatt'] at this
          push_cast at this ⊢
          simpa [updateConceptEntry] using this
        field_simp [List.sum_cons]
        linarith [this]
  · rintro (_ | ⟨y, t⟩) hne
    · exact absurd rfl hne
    · obtain ⟨e, he, hatt, hscore⟩ :=
        subtopicFold_invariant now t (updateSubtopicEntry none y.1 y.2 now)
      have hatt' : e.attempts = t.length + 1 := by
        simpa [updateSubtopicEntry, Nat.add_comm] using hatt
      refine ⟨e, ?_, ?_, ?_⟩
      · simpa [runSubtopicUpdates] using he
      · simpa [Nat.add_comm] using hatt'
      · have hlen : ((t.length : ℚ) + 1) ≠ 0 := by positivity
        have : e.mastery_score * ((t.length : ℚ) + 1) = y.1 + (t.map Prod.fst).sum := by
          have := hscore
          rw [hatt'] at this
          push_cast at this ⊢
          simpa [updateSubtopicEntry] using this
        field_simp [List.sum_cons]
        linarith [this]
  · simp only [runConceptUpdates, List.foldl, updateConceptEntry]
    norm_num [Rat.mkRat_eq_div]

/-- Witness for C7 at the spec's concrete scores 0.2, 0.6, 1.0. -/
theorem c7_running_mean_is_arithmetic_mean_witness :
    ([mkRat 1 5, mkRat 3 5, (1 : ℚ)] ≠ []) ∧
    ∃ e, runConceptUpdates "t1" [mkRat 1 5, mkRat 3 5, 1] = some e ∧
      e.attempts = ([mkRat 1 5, mkRat 3 5, (1 : ℚ)]).length ∧
      e.mastery_score = ([mkRat 1 5, mkRat 3 5, (1 : ℚ)]).sum /
        (([mkRat 1 5, mkRat 3 5, (1 : ℚ)]).length : ℚ) :=
  ⟨by simp,
   (c7_running_mean_is_arithmetic_mean "t1").1 [mkRat 1 5, mkRat 3 5, 1] (by simp)⟩


/-- Membership in a stable insertion. -/
theorem mem_insStable {α : Type} (keep : α → α → Bool) (l : List α) (x a : α) :
    a ∈ insStable keep l x ↔ a ∈ l ∨ a = x := by
  induction l with
  | nil => simp [insStable]
  | cons y t ih =>
    simp only [insStable]
    split
    · simp [ih]; tauto
    · simp; tauto

/-- Length of a stable insertion. -/
theorem length_insStable {α : Type} (keep : α → α → Bool) (l : List α) (x : α) :
    (insStable keep l x).length = l.length + 1 := by
  induction l with
  | nil => rfl
  | cons y t ih =>
    simp only [insStable]
    split
    · simp [ih]
    · simp

/-- Membership is preserved by the stable sort. -/
theorem mem_sortStable {α : Type} (keep : α → α → Bool) (l : List α) (a : α) :
    a ∈ sortStable keep l ↔ a ∈ l := by
  suffices h : ∀ (l acc : List α),
      a ∈ l.foldl (insStable keep) acc ↔ a ∈ acc ∨ a ∈ l by
    simpa using h l []
  intro l
  induction l with
  | nil => simp
  | cons y t ih =>
    intro acc
    rw [List.foldl_cons, ih, mem_insStable]
    simp; tauto

/-- Length is preserved by the stable sort. -/
theorem length_sortStable {α : Type} (keep : α → α → Bool) (l : List α) :
    (sortStable keep l).length = l.length := by
  suffices h : ∀ (l acc : List α),
      (l.foldl (insStable keep) acc).length = acc.length + l.length by
    simpa using h l []
  intro l
  induction l with
  | nil => simp
  | cons y t ih =>
    intro acc
    rw [List.foldl_cons, ih, length_insStable]
    simp; omega

/-- A sorted list is empty only when its source is. -/
theorem sortStable_eq_nil {α : Type} (keep : α → α → Bool) (l : List α) :
    sortStable keep l = [] ↔ l = [] := by
  constructor
  · intro h
    have := length_sortStable keep l
    rw [h] at this
    exact List.length_eq_zero.1 this.symm
  · intro h; subst h; rfl

/-- The mastery-band selection always yields a cluster of the input list,
and it satisfies the band predicate whenever any input cluster does. -/
theorem selectClusterByMastery_mem (clusters : List ClusterInfo)
    (score : ℚ) (r : ℕ) (c : ClusterInfo)
    (h : selectClusterByMastery clusters score r = some c) :
    c ∈ clusters ∧
      ((∃ c' ∈ clusters, bandPred score c' = true) → bandPred score c = true) := by
  unfold selectClusterByMastery at h
  split at h
  · exact absurd h (by simp)
  · simp only at h
    split at h
    · rename_i hemp
      refine ⟨(mem_sortStable _ _ _).1 (List.get?_mem h), ?_⟩
      rintro ⟨c', hc', hband⟩
      have : c' ∈ List.filter (bandPred score)
          (sortStable (fun y x => decide (y.complexity_level ≤ x.complexity_level)) clusters) :=
        List.mem_filter.2 ⟨(mem_sortStable _ _ _).2 hc', hband⟩
      rw [List.isEmpty_iff.1 hemp] at this
      exact absurd this (by simp)
    · have hmem := List.mem_filter.1 (List.get?_mem h)
      exact ⟨(mem_sortStable _ _ _).1 hmem.1, fun _ => hmem.2⟩

/-- The mastery-band selection succeeds on any non-empty cluster list. -/
theorem selectClusterByMastery_isSome (clusters : List ClusterInfo)
    (score : ℚ) (r : ℕ) (h : clusters ≠ []) :
    ∃ c, selectClusterByMastery clusters score r = some c := by
  unfold selectClusterByMastery
  split
  · rename_i hemp
    exact absurd (List.isEmpty_iff.1 hemp) h
  · simp only
    split
    · rename_i hemp
      have hlen : 0 < (sortStable
          (fun y x => decide (y.complexity_level ≤ x.complexity_level)) clusters).length := by
        rw [length_sortStable]
        exact List.length_pos.2 h
      have hr := Nat.mod_lt r hlen
      rw [List.get?_eq_getElem?]
      exact ⟨_, List.getElem?_eq_getElem hr⟩
    · rename_i hemp
      have hne : List.filter (bandPred score)
          (sortStable (fun y x => decide (y.complexity_level ≤ x.complexity_level)) clusters) ≠ [] := by
        intro hnil
        rw [hnil] at hemp
        exact hemp rfl
      have hlen : 0 < (List.filter (bandPred score)
          (sortStable (fun y x => decide (y.complexity_level ≤ x.complexity_level)) clusters)).length :=
        List.length_pos.2 hne
      have hr := Nat.mod_lt r hlen
      rw [List.get?_eq_getElem?]
      exact ⟨_, List.getElem?_eq_getElem hr⟩

/-- Modelled from the spec: the complexity-banded selection rule in its own
words — "score&lt;0.40→complexity≤2; &lt;0.60→2–3; &lt;0.80→3–4; else≥4" — stated on
a bare complexity level, to be compared with the code's `bandPred`. -/
def specBandB (score : ℚ) (complexity : ℕ) : Bool :=
  if score < mkRat 2 5 then decide (complexity ≤ 2)
  else if score < mkRat 3 5 then
    decide (2 ≤ complexity) && decide (complexity ≤ 3)
  else if score < mkRat 4 5 then
    decide (3 ≤ complexity) && decide (complexity ≤ 4)
  else decide (4 ≤ complexity)

/-- The spec scenario's complexity-1 cluster of subtopic "INNER JOIN". -/
def exClusterLow : ClusterInfo :=
  { cluster_id := "cl1", cluster_name := "Join basics", description := ""
    complexity_level := 1, learning_objective := ""
    skills_tested := ["INNER JOIN syntax"]
    subtopic_name := "INNER JOIN", topic_name := "SQL" }

/-- The spec scenario's complexity-4 cluster of subtopic "INNER JOIN". -/
def exClusterHigh : ClusterInfo :=
  { cluster_id := "cl4", cluster_name := "Advanced joins", description := ""
    complexity_level := 4, learning_objective := ""
    skills_tested := ["multi-table joins"]
    subtopic_name := "INNER JOIN", topic_name := "SQL" }

/-- C8: with no weak or missing concepts recorded, cluster selection falls
back to the mastery-banded rule; the code's band predicate coincides with the
spec's banded rule; any selected cluster belongs to the input list and lies in
the band whenever the band is inhabited (otherwise all clusters are used); and
in the spec scenario — clusters of complexity 1 and 4, mastery score 0.35 —
the complexity-1 cluster is returned for every random draw. -/
theorem c8_band_selection_without_weak_concepts :
    (∀ (score : ℚ) (c : ClusterInfo),
      bandPred score c = specBandB score c.complexity_level) ∧
    (∀ (clusters : List ClusterInfo) (score : ℚ) (r : ℕ),
      selectClusterByConceptCoverage clusters score [] r =
        selectClusterByMastery clusters score r) ∧
    (∀ (clusters : List ClusterInfo) (score : ℚ) (r : ℕ) (c : ClusterInfo),
      selectClusterByMastery clusters score r = some c →
      c ∈ clusters ∧
        ((∃ c' ∈ clusters, specBandB score c'.complexity_level = true) →
          specBandB score c.complexity_level = true)) ∧
    (∀ r : ℕ,
      selectClusterByConceptCoverage [exClusterLow, exClusterHigh]
        (mkRat 7 20) [] r = some exClusterLow) := by
  have hband : ∀ (score : ℚ) (c : ClusterInfo),
      bandPred score c = specBandB score c.complexity_level := fun _ _ => rfl
  have hfb : ∀ (clusters : List ClusterInfo) (score : ℚ) (r : ℕ),
      selectClusterByConceptCoverage clusters score [] r =
        selectClusterByMastery clusters score r := by
    intro clusters score r
    by_cases hc : clusters.isEmpty
    · simp [selectClusterByConceptCoverage, selectClusterByMastery, hc]
    · simp [selectClusterByConceptCoverage, hc]
  refine ⟨hband, hfb, ?_, ?_⟩
  · intro clusters score r c h
    obtain ⟨hmem, hb⟩ := selectClusterByMastery_mem clusters score r c h
    refine ⟨hmem, ?_⟩
    rintro ⟨c', hc', hband'⟩
    rw [← hband] at hband'
    rw [← hband]
    exact hb ⟨c', hc', hband'⟩
  · intro r
    rw [hfb]
    have hsort : sortStable
        (fun y x => decide (y.complexity_level ≤ x.complexity_level))
        [exClusterLow, exClusterHigh] = [exClusterLow, exClusterHigh] := by decide
    have hfil : List.filter (bandPred (mkRat 7 20)) [exClusterLow, exClusterHigh] =
        [exClusterLow] := by decide
    simp [selectClusterByMastery, hsort, hfil, Nat.mod_one]

/-- Witness for C8: the scenario instance together with the band-membership
consequence at a concrete random draw. -/
theorem c8_band_selection_without_weak_concepts_witness :
    selectClusterByConceptCoverage [exClusterLow, exClusterHigh]
      (mkRat 7 20) [] 5 = some exClusterLow ∧
    (exClusterLow ∈ [exClusterLow, exClusterHigh] ∧
      ((∃ c' ∈ [exClusterLow, exClusterHigh],
          specBandB (mkRat 7 20) c'.complexity_level = true) →
        specBandB (mkRat 7 20) exClusterLow.complexity_level = true)) :=
  ⟨c8_band_selection_without_weak_concepts.2.2.2 5,
   c8_band_selection_without_weak_concepts.2.2.1
     [exClusterLow, exClusterHigh] (mkRat 7 20) 5 exClusterLow (by decide)⟩


/-- The concept-coverage selection also yields a member of the input list. -/
theorem selectClusterByConceptCoverage_mem (clusters : List ClusterInfo)
    (score : ℚ) (priority : List String) (r : ℕ) (c : ClusterInfo)
    (h : selectClusterByConceptCoverage clusters score priority r = some c) :
    c ∈ clusters := by
  unfold selectClusterByConceptCoverage at h
  split at h
  · exact absurd h (by simp)
  · split at h
    · split at h
      · exact (selectClusterByMastery_mem _ _ _ _ h).1
      · rename_i best rest heq
        split at h
        · obtain ⟨hc⟩ := h
          have hbest : best ∈ rankedClusterScores priority clusters := by
            rw [heq]; exact List.mem_cons_self _ _
          have hbest' := (mem_sortStable _ _ _).1 hbest
          obtain ⟨cl, hcl, hf⟩ := List.mem_map.1 hbest'
          have : best.1 = cl := by rw [← hf]
          rw [this]
          exact hcl
        · exact (selectClusterByMastery_mem _ _ _ _ h).1
    · exact (selectClusterByMastery_mem _ _ _ _ h).1

/-- The concept-coverage selection succeeds on any non-empty cluster list. -/
theorem selectClusterByConceptCoverage_isSome (clusters : List ClusterInfo)
    (score : ℚ) (priority : List String) (r : ℕ) (h : clusters ≠ []) :
    ∃ c, selectClusterByConceptCoverage clusters score priority r = some c := by
  unfold selectClusterByConceptCoverage
  split
  · rename_i hemp
    exact absurd (List.isEmpty_iff.1 hemp) h
  · split
    · split
      · exact selectClusterByMastery_isSome clusters score r h
      · split
        · exact ⟨_, rfl⟩
        · exact selectClusterByMastery_isSome clusters score r h
    · exact selectClusterByMastery_isSome clusters score r h

/-- The concept-richness problem selection yields a member of its input list. -/
theorem selectProblemByConceptRichness_mem (problems : List Problem)
    (priority : List String) (cluster : ClusterInfo) (r : ℕ) (p : Problem)
    (h : selectProblemByConceptRichness problems priority cluster r = some p) :
    p ∈ problems := by
  unfold selectProblemByConceptRichness at h
  split at h
  · exact absurd h (by simp)
  · split at h
    · exact List.get?_mem h
    · split at h
      · exact List.get?_mem h
      · have hp := List.get?_mem h
        unfold topRichProblems at hp
        obtain ⟨pair, hpair, hfst⟩ := List.mem_map.1 hp
        have hpair' := (mem_sortStable _ _ _).1 (List.mem_of_mem_take hpair)
        obtain ⟨q, hq, hfq⟩ := List.mem_map.1 hpair'
        have : p = q := by rw [← hfst, ← hfq]
        rw [this]
        exact hq

/-- The concept-richness problem selection succeeds on a non-empty list. -/
theorem selectProblemByConceptRichness_isSome (problems : List Problem)
    (priority : List String) (cluster : ClusterInfo) (r : ℕ)
    (h : problems ≠ []) :
    ∃ p, selectProblemByConceptRichness problems priority cluster r = some p := by
  unfold selectProblemByConceptRichness
  have hlen : 0 < problems.length := List.length_pos.2 h
  split
  · rename_i hemp
    exact absurd (List.isEmpty_iff.1 hemp) h
  · split
    · have hr := Nat.mod_lt r hlen
      rw [List.get?_eq_getElem?]
      exact ⟨_, List.getElem?_eq_getElem hr⟩
    · split
      · rw [List.get?_eq_getElem?]
        exact ⟨_, List.getElem?_eq_getElem hlen⟩
      · rename_i hemp
        have hne : topRichProblems priority cluster problems ≠ [] := by
          intro hnil
          rw [hnil] at hemp
          exact hemp rfl
        have hlen' : 0 < (topRichProblems priority cluster problems).length :=
          List.length_pos.2 hne
        have hr := Nat.mod_lt r hlen'
        rw [List.get?_eq_getElem?]
        exact ⟨_, List.getElem?_eq_getElem hr⟩

/-- When the selected cluster has problems but every one of them was already
asked, `pickFromSubtopic` treats the asked-set as exhausted: it succeeds and
returns a problem of the cluster's full problem list, leaving the asked-set
unchanged. -/
theorem pickFromSubtopic_exhausted (kg : KnowledgeGraph)
    (problems : List Problem) (name : String) (asked : List String)
    (score : ℚ) (priority : List String) (r1 r2 : ℕ) (cluster : ClusterInfo)
    (hcl : selectClusterByConceptCoverage (getClustersForSubtopic kg name)
      score priority r1 = some cluster)
    (hprobs : getProblemsForCluster problems cluster.cluster_id ≠ [])
    (hall : ∀ p ∈ getProblemsForCluster problems cluster.cluster_id,
      asked.contains p.problem_id = true) :
    ∃ p, p ∈ getProblemsForCluster problems cluster.cluster_id ∧
      pickFromSubtopic kg problems name asked score priority r1 r2 =
        some (asked,
          { completed := false, cluster_info := some cluster
            question := p.description, problem_id := some p.problem_id }) := by
  have hclnil : getClustersForSubtopic kg name ≠ [] := by
    intro hnil
    rw [hnil] at hcl
    simp [selectClusterByConceptCoverage] at hcl
  have hclemp : (getClustersForSubtopic kg name).isEmpty = false := by
    simpa [List.isEmpty_iff] using hclnil
  have hfil : (getProblemsForCluster problems cluster.cluster_id).filter
      (fun p => !(asked.contains p.problem_id)) = [] := by
    rw [List.filter_eq_nil_iff]
    intro p hp
    rw [hall p hp]
    simp
  obtain ⟨p, hp⟩ := selectProblemByConceptRichness_isSome
    (getProblemsForCluster problems cluster.cluster_id) priority cluster r2 hprobs
  have hpmem := selectProblemByConceptRichness_mem _ _ _ _ _ hp
  have hpe : (getProblemsForCluster problems cluster.cluster_id).isEmpty = false := by
    simpa [List.isEmpty_iff] using hprobs
  have hin : p.problem_id ∈ asked := by simpa using hall p hpmem
  refine ⟨p, hpmem, ?_⟩
  simp only [pickFromSubtopic, hclemp, hcl, hfil]
  simp [hpe, hp, hin]

set_option maxHeartbeats 1000000 in
/-- C9: when every problem of the selected cluster has already been asked in
the current subtopic pass, the next selection call still succeeds (it does not
raise and does not return the completed/blocked signal): the asked-set counts
as exhausted and a problem of the cluster's full, non-excluded problem list is
returned. -/
theorem c9_exhausted_cluster_allows_repeats (kg : KnowledgeGraph)
    (problems : List Problem) (userTopic : String) (ps : PickerState)
    (session : SessionData) (masteryScores : Option MasteryTracking)
    (weakConcepts : Dict WeakConceptEntry) (conceptGaps : List String)
    (now : String) (r1 r2 : ℕ) (cluster : ClusterInfo)
    (hno : ((alGetCI (masteryScores.getD emptyMasteryTracking).subtopics
      (ps.current_subtopic.getD userTopic)).map
        (fun e => e.mastery_achieved)).getD false = false)
    (hcl : selectClusterByConceptCoverage
      (getClustersForSubtopic kg (ps.current_subtopic.getD userTopic))
      (((alGetCI (masteryScores.getD emptyMasteryTracking).subtopics
        (ps.current_subtopic.getD userTopic)).map
          (fun e => e.mastery_score)).getD 0)
      (extractPriorityConcepts weakConcepts conceptGaps) r1 = some cluster)
    (hprobs : getProblemsForCluster problems cluster.cluster_id ≠ [])
    (hall : ∀ p ∈ getProblemsForCluster problems cluster.cluster_id,
      (if ps.current_subtopic.isSome then ps.asked_problems else []).contains
        p.problem_id = true) :
    ∃ p, p ∈ getProblemsForCluster problems cluster.cluster_id ∧
      getNextQuestion kg problems userTopic ps session masteryScores
        weakConcepts conceptGaps now r1 r2 =
        some ({ current_subtopic := some (ps.current_subtopic.getD userTopic)
                asked_problems :=
                  if ps.current_subtopic.isSome then ps.asked_problems else [] },
              session,
              { completed := false, cluster_info := some cluster
                question := p.description, problem_id := some p.problem_id }) := by
  obtain ⟨p, hpmem, hpick⟩ :=
    pickFromSubtopic_exhausted kg problems _ _ _ _ r1 r2 cluster hcl hprobs hall
  refine ⟨p, hpmem, ?_⟩
  simp only [getNextQuestion]
  rw [hno]
  simp [hpick]

/-- Updating a key stores its value. -/
theorem alGet_alSet_self {α : Type} :
    ∀ (l : Dict α) (k : String) (v : α), alGet (alSet l k v) k = some v
  | [], k, v => by simp [alSet, alGet]
  | (k', v') :: t, k, v => by
    by_cases h : k' == k
    · simp [alSet, alGet, h]
    · simp only [alSet, h, Bool.false_eq_true, if_false, alGet]
      exact alGet_alSet_self t k v

/-- Updating a key leaves every other key's value alone. -/
theorem alGet_alSet_ne {α : Type} :
    ∀ (l : Dict α) (k k'' : String) (v : α), k'' ≠ k →
      alGet (alSet l k v) k'' = alGet l k''
  | [], k, k'', v, h => by
    simp only [alSet, alGet]
    rw [if_neg]
    simp only [beq_iff_eq]
    exact fun hc => h hc.symm
  | (k', v') :: t, k, k'', v, h => by
    by_cases hk : k' == k
    · have hk' : k' = k := by simpa using hk
      subst hk'
      have hne : ¬((k' == k'') = true) := by
        simp only [beq_iff_eq]
        exact fun hc => h hc.symm
      simp only [alSet, beq_self_eq_true, if_true, alGet]
      rw [if_neg hne, if_neg hne]
    · simp only [alSet, hk, Bool.false_eq_true, if_false, alGet]
      by_cases hh : k' == k''
      · simp [hh]
      · simp only [hh, Bool.false_eq_true, if_false]
        exact alGet_alSet_ne t k k'' v h

/-- Every key of an updated dictionary is the new key or an old key. -/
theorem mem_keys_alSet {α : Type} :
    ∀ (l : Dict α) (k : String) (v : α) (k'' : String),
      k'' ∈ (alSet l k v).map Prod.fst → k'' = k ∨ k'' ∈ l.map Prod.fst
  | [], k, v, k'' => by simp [alSet]
  | (k', v') :: t, k, v, k'' => by
    by_cases hk : k' == k
    · simp only [alSet, hk, if_true, List.map_cons, List.mem_cons]
      rintro (h | h)
      · exact Or.inl h
      · exact Or.inr (Or.inr h)
    · simp only [alSet, hk, Bool.false_eq_true, if_false, List.map_cons, List.mem_cons]
      rintro (h | h)
      · exact Or.inr (Or.inl h)
      · rcases mem_keys_alSet t k v k'' h with h' | h'
        · exact Or.inl h'
        · exact Or.inr (Or.inr h')

/-- The selection tail of `get_next_question` never raises: it always
produces a payload (a question or a completed/blocked message). -/
theorem pickFromSubtopic_isSome (kg : KnowledgeGraph) (problems : List Problem)
    (name : String) (asked : List String) (score : ℚ)
    (priority : List String) (r1 r2 : ℕ) :
    ∃ out, pickFromSubtopic kg problems name asked score priority r1 r2 = some out := by
  by_cases hemp : (getClustersForSubtopic kg name).isEmpty
  · exact ⟨(asked,
      { completed := true, message := "No clusters found for subtopic " ++ name }),
      by simp only [pickFromSubtopic, hemp, if_true]⟩
  · have hempf : (getClustersForSubtopic kg name).isEmpty = false := by
      rwa [Bool.not_eq_true] at hemp
    have hne : getClustersForSubtopic kg name ≠ [] := by
      intro hnil
      rw [hnil] at hempf
      simp at hempf
    obtain ⟨c, hc⟩ := selectClusterByConceptCoverage_isSome _ score priority r1 hne
    by_cases hf : ((getProblemsForCluster problems c.cluster_id).filter
        (fun p => !(asked.contains p.problem_id))).isEmpty
    · by_cases hA : (getProblemsForCluster problems c.cluster_id).isEmpty
      · exact ⟨(asked,
          { completed := true,
            message := "No problems available for cluster " ++ c.cluster_id }),
          by simp only [pickFromSubtopic, hempf, Bool.false_eq_true, if_false, hc,
            hf, if_true, hA]⟩
      · have hAne : getProblemsForCluster problems c.cluster_id ≠ [] := by
          intro hnil
          rw [hnil] at hA
          exact hA rfl
        obtain ⟨p, hp⟩ := selectProblemByConceptRichness_isSome _ priority c r2 hAne
        have hAf : (getProblemsForCluster problems c.cluster_id).isEmpty = false := by
          rwa [Bool.not_eq_true] at hA
        exact ⟨((if asked.contains p.problem_id then asked else asked ++ [p.problem_id]),
            { completed := false, cluster_info := some c,
              question := p.description, problem_id := some p.problem_id }),
          by simp only [pickFromSubtopic, hempf, Bool.false_eq_true, if_false, hc,
            hf, if_true, hAf, hp]⟩
    · have hff : ((getProblemsForCluster problems c.cluster_id).filter
          (fun p => !(asked.contains p.problem_id))).isEmpty = false := by
        rwa [Bool.not_eq_true] at hf
      have hfne : (getProblemsForCluster problems c.cluster_id).filter
          (fun p => !(asked.contains p.problem_id)) ≠ [] := by
        intro hnil
        rw [hnil] at hff
        simp at hff
      obtain ⟨p, hp⟩ := selectProblemByConceptRichness_isSome _ priority c r2 hfne
      exact ⟨((if asked.contains p.problem_id then asked else asked ++ [p.problem_id]),
          { completed := false, cluster_info := some c,
            question := p.description, problem_id := some p.problem_id }),
        by simp only [pickFromSubtopic, hempf, Bool.false_eq_true, if_false, hc,
          hff, hp]⟩

/-- A one-cluster knowledge-graph record for concrete scenarios. -/
def exKgCluster : Cluster :=
  { cluster_id := "c1", cluster_name := "Join basics", description := ""
    complexity_level := 1, learning_objective := ""
    skills_tested := ["INNER JOIN syntax"] }

/-- A one-topic knowledge graph with the single subtopic "INNER JOIN". -/
def exKg : KnowledgeGraph :=
  [{ topic_name := "SQL"
     subtopics := [{ subtopic_id := "s1", subtopic_name := "INNER JOIN"
                     description := "", clusters := [exKgCluster] }] }]

/-- The cluster-info dict `getClustersForSubtopic` builds from `exKg`. -/
def exClusterInfo : ClusterInfo :=
  { cluster_id := "c1", cluster_name := "Join basics", description := ""
    complexity_level := 1, learning_objective := ""
    skills_tested := ["INNER JOIN syntax"]
    subtopic_name := "INNER JOIN", topic_name := "SQL" }

/-- The single problem of the scenario's problem bank. -/
def exProblem : Problem :=
  { problem_id := "p1", cluster_id := "c1", topic_id := "s1"
    description := "Write an inner join query", difficulty := "easy"
    concepts := [], brief_summary := "inner join" }

/-- A picker that has already asked the only problem of the cluster. -/
def exAskedPicker : PickerState :=
  { current_subtopic := some "INNER JOIN", asked_problems := ["p1"] }

/-- Witness for C9: the only problem of the selected cluster was asked, yet
the next call returns that problem again with `completed = false`. -/
theorem c9_exhausted_cluster_allows_repeats_witness :
    (((alGetCI (Option.getD (none : Option MasteryTracking) emptyMasteryTracking).subtopics
      (exAskedPicker.current_subtopic.getD "inner join")).map
        (fun e => e.mastery_achieved)).getD false = false) ∧
    selectClusterByConceptCoverage
      (getClustersForSubtopic exKg (exAskedPicker.current_subtopic.getD "inner join"))
      (((alGetCI (Option.getD (none : Option MasteryTracking) emptyMasteryTracking).subtopics
        (exAskedPicker.current_subtopic.getD "inner join")).map
          (fun e => e.mastery_score)).getD 0)
      (extractPriorityConcepts [] []) 0 = some exClusterInfo ∧
    getProblemsForCluster [exProblem] exClusterInfo.cluster_id ≠ [] ∧
    (∀ p ∈ getProblemsForCluster [exProblem] exClusterInfo.cluster_id,
      (if exAskedPicker.current_subtopic.isSome then exAskedPicker.asked_problems
       else []).contains p.problem_id = true) ∧
    (∃ p, p ∈ getProblemsForCluster [exProblem] exClusterInfo.cluster_id ∧
      getNextQuestion exKg [exProblem] "inner join" exAskedPicker emptySessionData
        none [] [] "t1" 0 0 =
        some ({ current_subtopic := some (exAskedPicker.current_subtopic.getD "inner join")
                asked_problems :=
                  if exAskedPicker.current_subtopic.isSome then
                    exAskedPicker.asked_problems else [] },
              emptySessionData,
              { completed := false, cluster_info := some exClusterInfo
                question := p.description, problem_id := some p.problem_id })) :=
  ⟨by decide, by decide, by decide, by decide,
   c9_exhausted_cluster_allows_repeats exKg [exProblem] "inner join"
     exAskedPicker emptySessionData none [] [] "t1" 0 0 exClusterInfo
     (by decide) (by decide) (by decide) (by decide)⟩

/-- C4: whenever the picker advances to a new subtopic `t`, the attached
student profile is reset for `t`: the per-concept mastery map, the
weak-concept map and the concept-gap list all become empty, overall mastery
becomes 0, and `t`'s own entry becomes score 0, attempts 0,
`mastery_achieved = false` — regardless of anything previously stored for
`t` — and the cursor moves to `t`. -/
theorem c4_advance_resets_new_subtopic
    (kg : KnowledgeGraph) (problems : List Problem) (userTopic : String)
    (ps : PickerState) (session : SessionData)
    (masteryScores : Option MasteryTracking) (weakConcepts : Dict WeakConceptEntry)
    (conceptGaps : List String) (now : String) (r1 r2 : ℕ) (t : String)
    (hach : ((alGetCI (masteryScores.getD emptyMasteryTracking).subtopics
      (ps.current_subtopic.getD userTopic)).map
        (fun e => e.mastery_achieved)).getD false = true)
    (hatt : 3 ≤ ((alGetCI (masteryScores.getD emptyMasteryTracking).subtopics
      (ps.current_subtopic.getD userTopic)).map
        (fun e => e.attempts)).getD 0)
    (hnext : getNextSubtopic kg
      (masteryScores.getD emptyMasteryTracking).subtopics = some t) :
    ∃ ps' res, getNextQuestion kg problems userTopic ps session masteryScores
        weakConcepts conceptGaps now r1 r2 =
        some (ps', resetSubtopicMastery session t now, res) ∧
      ps'.current_subtopic = some t ∧
      (resetSubtopicMastery session t now).mastery_tracking.concepts = [] ∧
      (resetSubtopicMastery session t now).weak_concepts = [] ∧
      (resetSubtopicMastery session t now).concept_gaps = [] ∧
      (resetSubtopicMastery session t now).mastery_tracking.overall_mastery = 0 ∧
      alGet (resetSubtopicMastery session t now).mastery_tracking.subtopics t =
        some { mastery_score := 0, attempts := 0, mastery_achieved := false
               last_updated := now } := by
  obtain ⟨out, hout⟩ := pickFromSubtopic_isSome kg problems t []
    (((alGetCI (masteryScores.getD emptyMasteryTracking).subtopics
      (ps.current_subtopic.getD userTopic)).map
        (fun e => e.mastery_score)).getD 0)
    (extractPriorityConcepts weakConcepts conceptGaps) r1 r2
  refine ⟨{ current_subtopic := some t, asked_problems := out.1 }, out.2,
    ?_, rfl, rfl, rfl, rfl, rfl, ?_⟩
  · simp only [getNextQuestion]
    rw [hach, decide_eq_true hatt]
    simp [hnext, hout]
  · simp [resetSubtopicMastery, alGet_alSet_self]

/-- A mastery-tracking dict in which "INNER JOIN" is fully mastered. -/
def exMasteredTracking : MasteryTracking :=
  { concepts := [("INNER JOIN syntax",
      { mastery_score := mkRat 9 10, attempts := 3, last_updated := "t0" })]
    subtopics := [("INNER JOIN",
      { mastery_score := mkRat 9 10, attempts := 3, mastery_achieved := true
        last_updated := "t0" })]
    overall_mastery := mkRat 9 10 }

/-- A session holding `exMasteredTracking` plus weak-concept leftovers. -/
def exMasteredSession : SessionData :=
  { mastery_tracking := exMasteredTracking
    weak_concepts := [("JOIN keys",
      { occurrences := 2, first_seen := "t0", last_seen := "t0", severity := "high" })]
    concept_gaps := ["ON clause"] }

/-- A two-subtopic knowledge graph: "INNER JOIN" then "OUTER JOIN". -/
def exKgTwo : KnowledgeGraph :=
  [{ topic_name := "SQL"
     subtopics := [{ subtopic_id := "s1", subtopic_name := "INNER JOIN"
                     description := "", clusters := [exKgCluster] },
                   { subtopic_id := "s2", subtopic_name := "OUTER JOIN"
                     description := "", clusters := [] }] }]

/-- A picker currently on the mastered "INNER JOIN". -/
def exMasteredPicker : PickerState :=
  { current_subtopic := some "INNER JOIN", asked_problems := ["p1"] }

/-- Witness for C4: mastering "INNER JOIN" advances to "OUTER JOIN" and
resets its state entirely. -/
theorem c4_advance_resets_new_subtopic_witness :
    (((alGetCI (Option.getD (some exMasteredTracking) emptyMasteryTracking).subtopics
      (exMasteredPicker.current_subtopic.getD "inner join")).map
        (fun e => e.mastery_achieved)).getD false = true) ∧
    (3 ≤ ((alGetCI (Option.getD (some exMasteredTracking) emptyMasteryTracking).subtopics
      (exMasteredPicker.current_subtopic.getD "inner join")).map
        (fun e => e.attempts)).getD 0) ∧
    getNextSubtopic exKgTwo
      (Option.getD (some exMasteredTracking) emptyMasteryTracking).subtopics =
      some "OUTER JOIN" ∧
    (∃ ps' res, getNextQuestion exKgTwo [exProblem] "inner join" exMasteredPicker
        exMasteredSession (some exMasteredTracking) [] [] "t1" 0 0 =
        some (ps', resetSubtopicMastery exMasteredSession "OUTER JOIN" "t1", res) ∧
      ps'.current_subtopic = some "OUTER JOIN" ∧
      (resetSubtopicMastery exMasteredSession "OUTER JOIN" "t1").mastery_tracking.concepts = [] ∧
      (resetSubtopicMastery exMasteredSession "OUTER JOIN" "t1").weak_concepts = [] ∧
      (resetSubtopicMastery exMasteredSession "OUTER JOIN" "t1").concept_gaps = [] ∧
      (resetSubtopicMastery exMasteredSession "OUTER JOIN" "t1").mastery_tracking.overall_mastery = 0 ∧
      alGet (resetSubtopicMastery exMasteredSession "OUTER JOIN" "t1").mastery_tracking.subtopics
        "OUTER JOIN" =
        some { mastery_score := 0, attempts := 0, mastery_achieved := false
               last_updated := "t1" }) :=
  ⟨by decide, by decide, by decide,
   c4_advance_resets_new_subtopic exKgTwo [exProblem] "inner join"
     exMasteredPicker exMasteredSession (some exMasteredTracking) [] [] "t1" 0 0
     "OUTER JOIN" (by decide) (by decide) (by decide)⟩

/-- The agent state after a successful assessment stored estimate `p` for
the current subtopic (mastery_agent.py line 389). -/
def agentStoringEstimate (ag : MasteryAgentState) (cid : String)
    (st : SubtopicMasteryState) (p : ℚ) : MasteryAgentState :=
  let states' := alSet ag.subtopic_mastery_states cid
    { st with mastery_probability := p }
  { ag with subtopic_mastery_states := states' }

/-- C1 (amended): in the student profile's subtopic tracking, the engine's
floor holds — `mastery_achieved` is false whenever the stored attempt count is
below 3, whatever flag the assessment carries, and on an existing entry the
stored flag is exactly the assessment's flag gated by the floor.  The
`KnowledgeGraphMasteryAgent`, however, overrides the estimator's
`mastery_achieved` with the probability threshold alone: on a successful call
the returned flag is `threshold ≤ probability`, independent of the
estimator's own flag and of the attempt count. -/
theorem c1_attempt_floor_profile_threshold_only_agent :
    (∀ (prev : Option SubtopicEntry) (incoming : ℚ) (b : Bool) (now : String),
      (updateSubtopicEntry prev incoming b now).attempts < 3 →
      (updateSubtopicEntry prev incoming b now).mastery_achieved = false) ∧
    (∀ (e : SubtopicEntry) (incoming : ℚ) (b : Bool) (now : String),
      (updateSubtopicEntry (some e) incoming b now).mastery_achieved =
        (b && decide (3 ≤ e.attempts + 1))) ∧
    (∀ (ag : MasteryAgentState) (cid : String) (st : SubtopicMasteryState)
       (ctx : String × String × String) (out : EstimatorOutput),
      ag.current_subtopic_id = some cid →
      alGet ag.subtopic_mastery_states cid = some st →
      st.attempts_history ≠ [] →
      assessMasteryWithLLM ag (Except.ok ctx) (Except.ok out) =
        some (agentStoringEstimate ag cid st out.mastery_probability,
          { mastery_probability := out.mastery_probability
            feedback := out.feedback
            confidence_level := out.confidence_level
            mastery_achieved := decide (masteryThreshold ≤ out.mastery_probability) },
          true)) := by
  refine ⟨?_, ?_, ?_⟩
  · intro prev incoming b now h
    match prev with
    | none => rfl
    | some e =>
      simp only [updateSubtopicEntry] at h ⊢
      have : ¬ (3 ≤ e.attempts + 1) := by omega
      simp [this]
  · intro e incoming b now
    rfl
  · intro ag cid st ctx out hcid hst hne
    have hempty : st.attempts_history.isEmpty = false := by
      simpa [List.isEmpty_iff] using hne
    simp [assessMasteryWithLLM, hcid, hst, hempty, agentStoringEstimate]

/-- Witness for C1's amended statement: a second-attempt update with an
achieving assessment still stores `mastery_achieved = false`. -/
theorem c1_attempt_floor_profile_threshold_only_agent_witness :
    (updateSubtopicEntry
      (some { mastery_score := 1, attempts := 1, mastery_achieved := false
              last_updated := "t0" }) 1 true "t1").attempts < 3 ∧
    (updateSubtopicEntry
      (some { mastery_score := 1, attempts := 1, mastery_achieved := false
              last_updated := "t0" }) 1 true "t1").mastery_achieved = false :=
  ⟨by decide,
   c1_attempt_floor_profile_threshold_only_agent.1
     (some { mastery_score := 1, attempts := 1, mastery_achieved := false
             last_updated := "t0" }) 1 true "t1" (by decide)⟩

/-- A mastery state that has exactly one recorded attempt. -/
def exOneAttemptState : SubtopicMasteryState :=
  { subtopic_id := "s1", subtopic_name := "INNER JOIN"
    mastery_probability := 0, total_attempts := 1, correct_attempts := 1
    attempts_history := [exAttempt] }

/-- A one-subtopic knowledge-graph node for the counterexample agent. -/
def exNode : SubtopicNode :=
  { subtopic_id := "s1", subtopic_name := "INNER JOIN", description := ""
    clusters := [exKgCluster] }

/-- A mastery agent sitting on `exOneAttemptState`. -/
def exOneAttemptAgent : MasteryAgentState :=
  { subtopic_sequence := [exNode]
    subtopic_mastery_states := [("s1", exOneAttemptState)]
    current_subtopic_index := 0, current_subtopic_id := some "s1" }

/-- An estimator judgment with probability 0.9 whose own
`mastery_achieved` field says `false`. -/
def exEstimatorHigh : EstimatorOutput :=
  { mastery_probability := mkRat 9 10, feedback := some "strong"
    confidence_level := some "high", mastery_achieved := some false }

/-- `exOneAttemptAgent` after the successful assessment stored 0.9. -/
def exOneAttemptUpdatedState : SubtopicMasteryState :=
  { exOneAttemptState with mastery_probability := mkRat 9 10 }

/-- The agent state holding `exOneAttemptUpdatedState`. -/
def exOneAttemptUpdatedAgent : MasteryAgentState :=
  { exOneAttemptAgent with
      subtopic_mastery_states := [("s1", exOneAttemptUpdatedState)] }

/-- Counterexample to C1 as stated: after a single attempt
(`total_attempts = 1 < 3`), a successful estimate of 0.9 makes the engine
return `mastery_achieved = true` — the override of
`assess_mastery_with_llm` (mastery_agent.py lines 391-393) applies the
threshold without any attempt floor, even though the estimator itself said
`false` — and the subsequent `advance_to_next_subtopic` persists
`mastery_achieved = true` on the one-attempt subtopic state. -/
theorem c1_attempt_floor_counterexample :
    assessMasteryWithLLM exOneAttemptAgent (Except.ok ("k", "h", "c"))
      (Except.ok exEstimatorHigh) =
      some (exOneAttemptUpdatedAgent,
        { mastery_probability := mkRat 9 10, feedback := some "strong"
          confidence_level := some "high", mastery_achieved := true }, true) ∧
    exOneAttemptState.total_attempts = 1 ∧
    exEstimatorHigh.mastery_achieved = some false ∧
    advanceToNextSubtopic exOneAttemptUpdatedAgent "t2" =
      some ({ exOneAttemptUpdatedAgent with
                subtopic_mastery_states := [("s1",
                  { exOneAttemptUpdatedState with
                      mastery_achieved := true
                      completed_at := some "t2" })]
                current_subtopic_index := 1 }, false) := by
  refine ⟨?_, rfl, rfl, ?_⟩
  · decide
  · decide

/-- The head of a filtered list is the first match. -/
theorem filter_head?_eq_find? {α : Type} (p : α → Bool) (l : List α) :
    (l.filter p).head? = l.find? p := by
  induction l with
  | nil => rfl
  | cons a t ih =>
    rw [List.filter_cons]
    by_cases h : p a
    · rw [if_pos h, List.find?_cons_of_pos _ h]
      rfl
    · rw [if_neg h, List.find?_cons_of_neg _ h]
      exact ih

/-- A successful `find?` is the first element satisfying the predicate. -/
theorem find?_eq_some_first {α : Type} :
    ∀ (l : List α) (p : α → Bool) (a : α), l.find? p = some a →
      ∃ i, l.get? i = some a ∧ p a = true ∧
        ∀ j, j < i → ∀ x, l.get? j = some x → p x = false
  | [], p, a => by simp
  | b :: t, p, a => by
    intro h
    by_cases hpb : p b
    · rw [List.find?_cons_of_pos _ hpb] at h
      injection h with hba
      subst hba
      exact ⟨0, rfl, hpb, fun j hj => absurd hj (by omega)⟩
    · rw [List.find?_cons_of_neg _ hpb] at h
      obtain ⟨i, hi, hp, hfirst⟩ := find?_eq_some_first t p a h
      refine ⟨i + 1, by simpa using hi, hp, ?_⟩
      intro j hj x hx
      match j with
      | 0 =>
        have hbx : b = x := by simpa using hx
        subst hbx
        exact Bool.eq_false_iff.2 hpb
      | Nat.succ j' =>
        exact hfirst j' (by omega) x (by simpa using hx)

/-- `advance_to_next_subtopic` only ever touches the current subtopic's
mastery state. -/
theorem advance_preserves_noncurrent (ag : MasteryAgentState) (now : String)
    (ag' : MasteryAgentState) (b : Bool) (k : String)
    (h : advanceToNextSubtopic ag now = some (ag', b))
    (hk : ag.current_subtopic_id ≠ some k) :
    alGet ag'.subtopic_mastery_states k = alGet ag.subtopic_mastery_states k := by
  match hcid : ag.current_subtopic_id with
  | none =>
    simp only [advanceToNextSubtopic, hcid] at h
    exact absurd h (by simp)
  | some cid =>
    have hkc : k ≠ cid := by
      intro heq
      rw [heq] at hk
      exact hk hcid
    match hst : alGet ag.subtopic_mastery_states cid with
    | none =>
      simp only [advanceToNextSubtopic, hcid, hst] at h
      exact absurd h (by simp)
    | some st =>
      simp only [advanceToNextSubtopic, hcid, hst] at h
      split at h
      · split at h
        · injection h with h1
          obtain ⟨hag, hb⟩ := Prod.mk.inj h1
          subst hag
          exact alGet_alSet_ne _ cid k _ hkc
        · injection h with h1
          obtain ⟨hag, hb⟩ := Prod.mk.inj h1
          subst hag
          exact alGet_alSet_ne _ cid k _ hkc
      · injection h with h1
        obtain ⟨hag, hb⟩ := Prod.mk.inj h1
        subst hag
        rfl

/-- The mastery-state dict after `advance_to_next_subtopic` stamped the
current subtopic (mastery_agent.py lines 241-242). -/
def statesAfterMastered (ag : MasteryAgentState) (cid : String)
    (st : SubtopicMasteryState) (now : String) : Dict SubtopicMasteryState :=
  alSet ag.subtopic_mastery_states cid
    { st with mastery_achieved := true, completed_at := some now }

/-- C3: mastering the current subtopic (probability at threshold, at least 3
attempts) makes `advance_to_next_subtopic` flag it mastered, stamp its
`completed_at` with the current time, leave every other subtopic state
untouched and move the cursor one step — to a subtopic different from the
mastered one when a next one exists, so the stamp is written exactly once:
any later advance call, made with a different current subtopic, leaves the
mastered entry unchanged.  `_get_next_subtopic` picks the first unmastered
subtopic in knowledge-graph order; when no unmastered subtopic remains,
`get_next_question` returns the distinct all-subtopics-complete terminal
signal. -/
theorem c3_mastery_advances_cursor_and_stamps_completion :
    (∀ (ag : MasteryAgentState) (now cid : String) (st : SubtopicMasteryState)
       (cur : SubtopicNode),
      ag.current_subtopic_id = some cid →
      alGet ag.subtopic_mastery_states cid = some st →
      masteryThreshold ≤ st.mastery_probability →
      3 ≤ st.total_attempts →
      (ag.subtopic_sequence.map (fun n => n.subtopic_id)).Nodup →
      ag.subtopic_sequence.get? ag.current_subtopic_index = some cur →
      cur.subtopic_id = cid →
      ∃ ag' b, advanceToNextSubtopic ag now = some (ag', b) ∧
        alGet ag'.subtopic_mastery_states cid =
          some { st with mastery_achieved := true, completed_at := some now } ∧
        (∀ k, k ≠ cid →
          alGet ag'.subtopic_mastery_states k =
            alGet ag.subtopic_mastery_states k) ∧
        ag'.current_subtopic_index = ag.current_subtopic_index + 1 ∧
        (∀ nextSub ∈ ag.subtopic_sequence.get? (ag.current_subtopic_index + 1),
          ag'.current_subtopic_id = some nextSub.subtopic_id ∧ b = true ∧
            nextSub.subtopic_id ≠ cid) ∧
        (ag.subtopic_sequence.get? (ag.current_subtopic_index + 1) = none →
          ag'.current_subtopic_id = some cid ∧ b = false) ∧
        (∀ (now₂ : String) (ag₂ : MasteryAgentState) (b₂ : Bool),
          advanceToNextSubtopic ag' now₂ = some (ag₂, b₂) →
          ag'.current_subtopic_id ≠ some cid →
          alGet ag₂.subtopic_mastery_states cid =
            alGet ag'.subtopic_mastery_states cid)) ∧
    (∀ (kg : KnowledgeGraph) (subs : Dict SubtopicEntry) (t : String),
      getNextSubtopic kg subs = some t →
      ∃ i, (kgNames kg).get? i = some t ∧ unmasteredB subs t = true ∧
        ∀ j, j < i → ∀ x, (kgNames kg).get? j = some x →
          unmasteredB subs x = false) ∧
    (∀ (kg : KnowledgeGraph) (subs : Dict SubtopicEntry),
      getNextSubtopic kg subs = none →
      ∀ n ∈ kgNames kg, unmasteredB subs n = false) ∧
    (∀ (kg : KnowledgeGraph) (problems : List Problem) (userTopic : String)
       (ps : PickerState) (session : SessionData)
       (masteryScores : Option MasteryTracking)
       (weakConcepts : Dict WeakConceptEntry) (conceptGaps : List String)
       (now : String) (r1 r2 : ℕ),
      ((alGetCI (masteryScores.getD emptyMasteryTracking).subtopics
        (ps.current_subtopic.getD userTopic)).map
          (fun e => e.mastery_achieved)).getD false = true →
      3 ≤ ((alGetCI (masteryScores.getD emptyMasteryTracking).subtopics
        (ps.current_subtopic.getD userTopic)).map
          (fun e => e.attempts)).getD 0 →
      getNextSubtopic kg (masteryScores.getD emptyMasteryTracking).subtopics = none →
      getNextQuestion kg problems userTopic ps session masteryScores weakConcepts
        conceptGaps now r1 r2 =
        some ({ current_subtopic := some (ps.current_subtopic.getD userTopic)
                asked_problems :=
                  if ps.current_subtopic.isSome then ps.asked_problems else [] },
          session,
          { completed := true
            message := "Congratulations! You\x27ve mastered all subtopics! 🎉" })) := by
  refine ⟨?_, ?_, ?_, ?_⟩
  · intro ag now cid st cur hcid hst hprob hatt hnodup hseq hcur
    cases hnext : ag.subtopic_sequence.get? (ag.current_subtopic_index + 1) with
    | some nextSub =>
      have hadv : advanceToNextSubtopic ag now =
          some ({ ag with
                    subtopic_mastery_states := statesAfterMastered ag cid st now
                    current_subtopic_index := ag.current_subtopic_index + 1
                    current_subtopic_id := some nextSub.subtopic_id }, true) := by
        simp only [advanceToNextSubtopic, hcid, hst, hnext, if_pos hprob,
          statesAfterMastered]
      have hnecid : nextSub.subtopic_id ≠ cid := by
        intro heq
        have h1 : (ag.subtopic_sequence.map (fun n => n.subtopic_id)).get?
            ag.current_subtopic_index = some cid := by
          rw [List.get?_map, hseq]
          simp [hcur]
        have h2 : (ag.subtopic_sequence.map (fun n => n.subtopic_id)).get?
            (ag.current_subtopic_index + 1) = some cid := by
          rw [List.get?_map, hnext]
          simp [heq]
        obtain ⟨hlt2, _⟩ := List.get?_eq_some.1 hnext
        have hlen : ag.current_subtopic_index <
            (ag.subtopic_sequence.map (fun n => n.subtopic_id)).length := by
          rw [List.length_map]
          omega
        have := List.get?_inj hlen hnodup (h1.trans h2.symm)
        omega
      refine ⟨_, _, hadv, ?_, ?_, rfl, ?_, ?_, ?_⟩
      · exact alGet_alSet_self _ _ _
      · exact fun k hk => alGet_alSet_ne _ cid k _ hk
      · intro ns hns
        have hns' : ns = nextSub := by simpa using hns.symm
        subst hns'
        exact ⟨rfl, rfl, hnecid⟩
      · intro h0
        exact absurd h0 (by simp)
      · intro now₂ ag₂ b₂ hadv₂ hcne
        exact advance_preserves_noncurrent _ now₂ ag₂ b₂ cid hadv₂ hcne
    | none =>
      have hadv : advanceToNextSubtopic ag now =
          some ({ ag with
                    subtopic_mastery_states := statesAfterMastered ag cid st now
                    current_subtopic_index := ag.current_subtopic_index + 1 }, false) := by
        simp only [advanceToNextSubtopic, hcid, hst, hnext, if_pos hprob,
          statesAfterMastered]
      refine ⟨_, _, hadv, ?_, ?_, rfl, ?_, ?_, ?_⟩
      · exact alGet_alSet_self _ _ _
      · exact fun k hk => alGet_alSet_ne _ cid k _ hk
      · intro ns hns
        exact absurd hns (by simp)
      · intro _
        exact ⟨hcid, rfl⟩
      · intro now₂ ag₂ b₂ hadv₂ hcne
        exact advance_preserves_noncurrent _ now₂ ag₂ b₂ cid hadv₂ hcne
  · intro kg subs t h
    simp only [getNextSubtopic, filter_head?_eq_find?] at h
    exact find?_eq_some_first _ _ _ h
  · intro kg subs h n hn
    simp only [getNextSubtopic, filter_head?_eq_find?] at h
    exact Bool.eq_false_iff.2 (List.find?_eq_none.1 h n hn)
  · intro kg problems userTopic ps session masteryScores weakConcepts conceptGaps
      now r1 r2 hach hatt hnone
    simp only [getNextQuestion]
    rw [hach, decide_eq_true hatt]
    simp [hnone]

/-- Subtopic node A of the spec's three-subtopic scenario. -/
def exNodeA : SubtopicNode :=
  { subtopic_id := "sA", subtopic_name := "A", description := ""
    clusters := [exKgCluster] }

/-- Subtopic node B of the spec's three-subtopic scenario. -/
def exNodeB : SubtopicNode :=
  { subtopic_id := "sB", subtopic_name := "B", description := "", clusters := [] }

/-- Subtopic node C of the spec's three-subtopic scenario. -/
def exNodeC : SubtopicNode :=
  { subtopic_id := "sC", subtopic_name := "C", description := "", clusters := [] }

/-- Subtopic A mastered: probability 0.9 after 3 correct attempts. -/
def exStateA : SubtopicMasteryState :=
  { subtopic_id := "sA", subtopic_name := "A"
    mastery_probability := mkRat 9 10, total_attempts := 3, correct_attempts := 3
    attempts_history := [exAttempt] }

/-- Subtopic B untouched. -/
def exStateB : SubtopicMasteryState :=
  { subtopic_id := "sB", subtopic_name := "B"
    mastery_probability := 0, total_attempts := 0, correct_attempts := 0
    attempts_history := [] }

/-- Subtopic C untouched. -/
def exStateC : SubtopicMasteryState :=
  { subtopic_id := "sC", subtopic_name := "C"
    mastery_probability := 0, total_attempts := 0, correct_attempts := 0
    attempts_history := [] }

/-- The scenario agent: sequence A, B, C with A mastered and current. -/
def exAgentABC : MasteryAgentState :=
  { subtopic_sequence := [exNodeA, exNodeB, exNodeC]
    subtopic_mastery_states := [("sA", exStateA), ("sB", exStateB), ("sC", exStateC)]
    current_subtopic_index := 0, current_subtopic_id := some "sA" }

/-- A tracking dict in which every subtopic of `exKgTwo` is mastered. -/
def exAllMasteredTracking : MasteryTracking :=
  { concepts := []
    subtopics := [("INNER JOIN",
      { mastery_score := mkRat 9 10, attempts := 3, mastery_achieved := true
        last_updated := "t0" }),
      ("OUTER JOIN",
      { mastery_score := mkRat 9 10, attempts := 3, mastery_achieved := true
        last_updated := "t0" })]
    overall_mastery := mkRat 9 10 }

/-- Witness for C3 on the scenario "graph A, B, C; learner masters A": the
cursor moves to B (a different subtopic, so `completed_at` is stamped exactly
once), and with every subtopic mastered the picker returns the
all-subtopics-complete signal. -/
theorem c3_mastery_advances_cursor_and_stamps_completion_witness :
    (∃ ag' b, advanceToNextSubtopic exAgentABC "t9" = some (ag', b) ∧
      alGet ag'.subtopic_mastery_states "sA" =
        some { exStateA with mastery_achieved := true, completed_at := some "t9" } ∧
      (∀ k, k ≠ "sA" →
        alGet ag'.subtopic_mastery_states k =
          alGet exAgentABC.subtopic_mastery_states k) ∧
      ag'.current_subtopic_index = exAgentABC.current_subtopic_index + 1 ∧
      (∀ nextSub ∈ exAgentABC.subtopic_sequence.get?
          (exAgentABC.current_subtopic_index + 1),
        ag'.current_subtopic_id = some nextSub.subtopic_id ∧ b = true ∧
          nextSub.subtopic_id ≠ "sA") ∧
      (exAgentABC.subtopic_sequence.get? (exAgentABC.current_subtopic_index + 1) = none →
        ag'.current_subtopic_id = some "sA" ∧ b = false) ∧
      (∀ (now₂ : String) (ag₂ : MasteryAgentState) (b₂ : Bool),
        advanceToNextSubtopic ag' now₂ = some (ag₂, b₂) →
        ag'.current_subtopic_id ≠ some "sA" →
        alGet ag₂.subtopic_mastery_states "sA" =
          alGet ag'.subtopic_mastery_states "sA")) ∧
    getNextQuestion exKgTwo [exProblem] "inner join" exMasteredPicker
      exMasteredSession (some exAllMasteredTracking) [] [] "t9" 0 0 =
      some ({ current_subtopic := some (exMasteredPicker.current_subtopic.getD "inner join")
              asked_problems :=
                if exMasteredPicker.current_subtopic.isSome then
                  exMasteredPicker.asked_problems else [] },
        exMasteredSession,
        { completed := true
          message := "Congratulations! You\x27ve mastered all subtopics! 🎉" }) :=
  ⟨c3_mastery_advances_cursor_and_stamps_completion.1 exAgentABC "t9" "sA"
     exStateA exNodeA rfl (by decide) (by decide) (by decide) (by decide)
     (by decide) rfl,
   c3_mastery_advances_cursor_and_stamps_completion.2.2.2 exKgTwo [exProblem]
     "inner join" exMasteredPicker exMasteredSession (some exAllMasteredTracking)
     [] [] "t9" 0 0 (by decide) (by decide) (by decide)⟩

/-!  ## The composed per-turn flow of app.py  -/

/-- The canonical knowledge-graph spelling of a subtopic name: the name of
the first graph subtopic matching case-insensitively.  Every question the
picker produces for the cursor `name` carries this spelling in its
`cluster_info["subtopic_name"]` (question_picker.py lines 216-225), and it is
the key under which `save_question_data` records the attempt. -/
def canonicalName (kg : KnowledgeGraph) (name : String) : Option String :=
  ((subtopicNodes kg).find?
    (fun s => strLower s.subtopic_name == strLower name)).map
    (fun s => s.subtopic_name)

/-- The per-turn inputs of one Submit-Answer round of app.py (lines 208-371):
the grader's weak/missing concepts, the mastery assessment's fields fed to
`save_question_data`, the wall clock and the two random draws. -/
structure TurnInput where
  concept_mastery : Dict ℚ
  subtopic_mastery : ℚ
  assess_achieved : Bool
  weak_concepts : List String
  missing_concepts : List String
  now : String
  r1 : ℕ
  r2 : ℕ
  deriving Repr

/-- The engine state one turn acts on: the student session, the picker
cursor, and whether the session has reached a terminal payload (after which
app.py shows a warning instead of an answer box, so no further turn runs). -/
structure TutorTurnState where
  session : SessionData
  picker : PickerState
  completed : Bool
  deriving Repr

/-- One Submit-Answer turn of app.py: grade (external), record the attempt —
`_track_weak_concepts` then `_update_mastery_tracking` under the question's
canonical subtopic name — then ask the picker for the next question with the
freshly updated profile (whose `weak_concepts`/`concept_gaps` keys the
profile dict does not carry, hence the empty arguments, exactly as
`get_next_question(profile)` receives them).  A state with no
case-insensitive match for the cursor has no pending question and is left
unchanged. -/
def stepTurn (kg : KnowledgeGraph) (problems : List Problem) (userTopic : String)
    (st : TutorTurnState) (inp : TurnInput) : TutorTurnState :=
  if st.completed then st
  else
    match canonicalName kg (st.picker.current_subtopic.getD userTopic) with
    | none => st
    | some qname =>
      let s1 := trackWeakConcepts st.session inp.weak_concepts
        inp.missing_concepts inp.now
      let s2 := updateMasteryTracking s1 qname inp.concept_mastery
        inp.subtopic_mastery inp.assess_achieved inp.now
      match getNextQuestion kg problems userTopic st.picker s2
        (some s2.mastery_tracking) [] [] inp.now inp.r1 inp.r2 with
      | none => { session := s2, picker := st.picker, completed := true }
      | some psr => { session := psr.2.1, picker := psr.1, completed := psr.2.2.completed }

/-- A whole session: fold the turns over the state. -/
def runTurns (kg : KnowledgeGraph) (problems : List Problem) (userTopic : String)
    (st : TutorTurnState) (inputs : List TurnInput) : TutorTurnState :=
  inputs.foldl (stepTurn kg problems userTopic) st

/-- The session state at the start of app.py: empty tracking, unset cursor;
no question (hence a terminal state) when the chosen topic matches no graph
subtopic. -/
def initTurnState (kg : KnowledgeGraph) (userTopic : String) : TutorTurnState :=
  { session := emptySessionData
    picker := { current_subtopic := none, asked_problems := [] }
    completed := (canonicalName kg userTopic).isNone }

/-- The tracked `mastery_achieved` flag of a subtopic, false when untracked. -/
def achievedB (s : SessionData) (name : String) : Bool :=
  ((alGet s.mastery_tracking.subtopics name).map (·.mastery_achieved)).getD false

/-- The subtopic names tracked by a session. -/
def sessionKeys (s : SessionData) : List String :=
  s.mastery_tracking.subtopics.map Prod.fst

/-- The current cursor points at a subtopic whose tracked state is not yet
flagged mastered. -/
def currentOkB (kg : KnowledgeGraph) (userTopic : String) (st : TutorTurnState) :
    Bool :=
  match canonicalName kg (st.picker.current_subtopic.getD userTopic) with
  | none => false
  | some q => !(achievedB st.session q)

/-- The inductive invariant of the turn loop: either the session is terminal,
or the cursor sits on a not-yet-mastered subtopic; and every tracked key is a
graph subtopic name. -/
def invB (kg : KnowledgeGraph) (userTopic : String) (st : TutorTurnState) : Bool :=
  (st.completed || currentOkB kg userTopic st) &&
    (sessionKeys st.session).all (fun k => (kgNames kg).contains k)

/-- A canonical name is a graph name with the same lowering. -/
theorem canonicalName_mem (kg : KnowledgeGraph) (name q : String)
    (h : canonicalName kg name = some q) :
    q ∈ kgNames kg ∧ strLower q = strLower name := by
  unfold canonicalName at h
  match hf : (subtopicNodes kg).find?
      (fun s => strLower s.subtopic_name == strLower name) with
  | none => rw [hf] at h; exact absurd h (by simp)
  | some s0 =>
    rw [hf] at h
    have hq : q = s0.subtopic_name := by simpa using h.symm
    subst hq
    refine ⟨List.mem_map.2 ⟨s0, List.mem_of_find?_eq_some hf, rfl⟩, ?_⟩
    simpa using List.find?_some hf

/-- With case-insensitively distinct graph names, a graph name is its own
canonical spelling. -/
theorem canonicalName_self (kg : KnowledgeGraph) (t : String)
    (hnd : ((kgNames kg).map strLower).Nodup) (ht : t ∈ kgNames kg) :
    canonicalName kg t = some t := by
  obtain ⟨node, hnode, hname⟩ := List.mem_map.1 ht
  have hex : ∃ s ∈ subtopicNodes kg,
      (strLower s.subtopic_name == strLower t) = true := by
    exact ⟨node, hnode, by rw [hname]; simp⟩
  match hf : (subtopicNodes kg).find?
      (fun s => strLower s.subtopic_name == strLower t) with
  | none =>
    rw [List.find?_eq_none] at hf
    obtain ⟨s, hs, hps⟩ := hex
    exact absurd hps (hf s hs)
  | some s0 =>
    have hmem : s0.subtopic_name ∈ kgNames kg :=
      List.mem_map.2 ⟨s0, List.mem_of_find?_eq_some hf, rfl⟩
    have hlow : strLower s0.subtopic_name = strLower t := by
      simpa using List.find?_some hf
    have : s0.subtopic_name = t :=
      List.inj_on_of_nodup_map hnd hmem ht hlow
    unfold canonicalName
    rw [hf]
    simp [this]

/-- Under the invariant's key discipline, the picker's case-insensitive
lookup agrees with the exact lookup at the canonical name. -/
theorem alGetCI_eq_alGet {α : Type} :
    ∀ (l : Dict α) (names : List String) (q name : String),
      (∀ k ∈ l.map Prod.fst, k ∈ names) → ((names.map strLower).Nodup) →
      q ∈ names → strLower q = strLower name →
      alGetCI l name = alGet l q
  | [], _, _, _, _, _, _, _ => rfl
  | (k, v) :: t, names, q, name, hk, hnd, hq, hlow => by
    have hkmem : k ∈ names := hk k (by simp)
    by_cases hb : strLower k == strLower name
    · have hkq : k = q := by
        have h1 : strLower k = strLower name := by simpa using hb
        exact List.inj_on_of_nodup_map hnd hkmem hq (h1.trans hlow.symm)
    -- both lookups hit the head
      simp only [alGetCI, hb, if_true, alGet]
      rw [if_pos (by simp [hkq])]
    · have hkq : ¬(k == q) = true := by
        intro hc
        have : k = q := by simpa using hc
        subst this
        exact hb (by rw [hlow]; simp)
      simp only [alGetCI, hb, Bool.false_eq_true, if_false, alGet, hkq]
      exact alGetCI_eq_alGet t names q name
        (fun k' hk' => hk k' (by simp [hk'])) hnd hq hlow

/-- Recording weak concepts does not touch the mastery tracking. -/
theorem trackWeakConcepts_tracking (s : SessionData) (w m : List String)
    (now : String) :
    (trackWeakConcepts s w m now).mastery_tracking = s.mastery_tracking := rfl

/-- The subtopic dict after `_update_mastery_tracking`. -/
theorem updateMasteryTracking_subtopics (s : SessionData) (q : String)
    (cm : Dict ℚ) (sm : ℚ) (b : Bool) (now : String) :
    (updateMasteryTracking s q cm sm b now).mastery_tracking.subtopics =
      alSet s.mastery_tracking.subtopics q
        (updateSubtopicEntry (alGet s.mastery_tracking.subtopics q) sm b now) := rfl

/-- The profile's attempt floor: an entry can only carry the mastered flag
with at least three attempts. -/
theorem updateSubtopicEntry_floor (prev : Option SubtopicEntry) (incoming : ℚ)
    (b : Bool) (now : String)
    (h : (updateSubtopicEntry prev incoming b now).mastery_achieved = true) :
    3 ≤ (updateSubtopicEntry prev incoming b now).attempts := by
  match prev with
  | none => exact absurd h (by simp [updateSubtopicEntry])
  | some e =>
    simp only [updateSubtopicEntry, Bool.and_eq_true, decide_eq_true_eq] at h
    simpa [updateSubtopicEntry] using h.2

/-- A successful `_get_next_subtopic` yields a graph name that tests
unmastered. -/
theorem getNextSubtopic_some_mem (kg : KnowledgeGraph)
    (subs : Dict SubtopicEntry) (t : String)
    (h : getNextSubtopic kg subs = some t) :
    t ∈ kgNames kg ∧ unmasteredB subs t = true := by
  simp only [getNextSubtopic, filter_head?_eq_find?] at h
  exact ⟨List.mem_of_find?_eq_some h, List.find?_some h⟩

/-- An unmastered subtopic is not flagged mastered. -/
theorem unmasteredB_not_achieved (subs : Dict SubtopicEntry) (t : String)
    (h : unmasteredB subs t = true) :
    ((alGet subs t).map (·.mastery_achieved)).getD false = false := by
  unfold unmasteredB at h
  rw [Bool.and_eq_true] at h
  simpa using h.1

/-- One turn preserves the loop invariant and never lowers a mastered flag:
the update lands on the current subtopic, which the invariant knows is not
yet flagged; if the update flags it, the picker immediately advances to a
subtopic that tests unmastered (or terminates the session), so no later
update can land on the flagged subtopic. -/
theorem stepTurn_inv_mono (kg : KnowledgeGraph) (problems : List Problem)
    (userTopic : String) (st : TutorTurnState) (inp : TurnInput)
    (hnd : ((kgNames kg).map strLower).Nodup)
    (hinv : invB kg userTopic st = true) :
    invB kg userTopic (stepTurn kg problems userTopic st inp) = true ∧
    (∀ S, achievedB st.session S = true →
      achievedB (stepTurn kg problems userTopic st inp).session S = true) := by
  by_cases hc : st.completed = true
  · constructor
    · simpa [stepTurn, hc] using hinv
    · intro S h
      simpa [stepTurn, hc] using h
  · have hcf : st.completed = false := Bool.eq_false_iff.2 hc
    have hinv' := hinv
    unfold invB at hinv'
    rw [Bool.and_eq_true, Bool.or_eq_true] at hinv'
    obtain ⟨hor, hkeys⟩ := hinv'
    have hcur : currentOkB kg userTopic st = true := by
      rcases hor with h | h
      · rw [hcf] at h
        exact absurd h (by simp)
      · exact h
    unfold currentOkB at hcur
    match hq : canonicalName kg (st.picker.current_subtopic.getD userTopic) with
    | none =>
      rw [hq] at hcur
      exact absurd hcur (by simp)
    | some q =>
      rw [hq] at hcur
      have hqa : achievedB st.session q = false := by simpa using hcur
      obtain ⟨hqmem, hqlow⟩ := canonicalName_mem kg _ q hq
      have hkeys' : ∀ k ∈ sessionKeys st.session, k ∈ kgNames kg := by
        intro k hk
        have := (List.all_eq_true.1 hkeys) k hk
        simpa using this
      set s1 := trackWeakConcepts st.session inp.weak_concepts
        inp.missing_concepts inp.now with hs1
      set entryQ := updateSubtopicEntry (alGet s1.mastery_tracking.subtopics q)
        inp.subtopic_mastery inp.assess_achieved inp.now with hentry
      set s2 := updateMasteryTracking s1 q inp.concept_mastery
        inp.subtopic_mastery inp.assess_achieved inp.now with hs2def
      have hs2sub : s2.mastery_tracking.subtopics =
          alSet s1.mastery_tracking.subtopics q entryQ := rfl
      have hs1tr : s1.mastery_tracking = st.session.mastery_tracking := rfl
      have hkeys2 : ∀ k ∈ s2.mastery_tracking.subtopics.map Prod.fst,
          k ∈ kgNames kg := by
        intro k hk
        rw [hs2sub] at hk
        rcases mem_keys_alSet _ q entryQ k hk with rfl | hk'
        · exact hqmem
        · exact hkeys' k (by rw [sessionKeys, ← hs1tr]; exact hk')
      have hach2 : ∀ S, S ≠ q → achievedB s2 S = achievedB st.session S := by
        intro S hS
        unfold achievedB
        rw [hs2sub, alGet_alSet_ne _ q S _ hS, hs1tr]
      have hq2 : alGet s2.mastery_tracking.subtopics q = some entryQ := by
        rw [hs2sub]
        exact alGet_alSet_self _ _ _
      have hci : alGetCI s2.mastery_tracking.subtopics
          (st.picker.current_subtopic.getD userTopic) = some entryQ := by
        rw [alGetCI_eq_alGet s2.mastery_tracking.subtopics (kgNames kg) q
          (st.picker.current_subtopic.getD userTopic) hkeys2 hnd hqmem hqlow]
        exact hq2
      have hkeys2all : ((sessionKeys s2).all
          (fun k => (kgNames kg).contains k)) = true := by
        rw [List.all_eq_true]
        intro k hk
        simpa using hkeys2 k hk
      by_cases hA : entryQ.mastery_achieved = true
      · have hatt3 : 3 ≤ entryQ.attempts := by
          rw [hentry] at hA ⊢
          exact updateSubtopicEntry_floor _ _ _ _ hA
        cases hnx : getNextSubtopic kg s2.mastery_tracking.subtopics with
        | some t =>
          obtain ⟨htmem, htunm⟩ := getNextSubtopic_some_mem _ _ _ hnx
          have hta : achievedB s2 t = false := unmasteredB_not_achieved _ _ htunm
          obtain ⟨out, hout⟩ := pickFromSubtopic_isSome kg problems t []
            entryQ.mastery_score (extractPriorityConcepts [] []) inp.r1 inp.r2
          have hgnq : getNextQuestion kg problems userTopic st.picker s2
              (some s2.mastery_tracking) [] [] inp.now inp.r1 inp.r2 =
              some ({ current_subtopic := some t, asked_problems := out.1 },
                resetSubtopicMastery s2 t inp.now, out.2) := by
            simp [getNextQuestion, hci, hA, decide_eq_true hatt3, hnx, hout]
          have hstep : stepTurn kg problems userTopic st inp =
              { session := resetSubtopicMastery s2 t inp.now
                picker := { current_subtopic := some t, asked_problems := out.1 }
                completed := out.2.completed } := by
            simp only [stepTurn, hcf, Bool.false_eq_true, if_false, hq, hgnq]
          have hresett : achievedB (resetSubtopicMastery s2 t inp.now) t = false := by
            unfold achievedB resetSubtopicMastery
            simp [alGet_alSet_self]
          have hresetne : ∀ S, S ≠ t →
              achievedB (resetSubtopicMastery s2 t inp.now) S = achievedB s2 S := by
            intro S hS
            unfold achievedB resetSubtopicMastery
            simp only
            rw [alGet_alSet_ne _ t S _ hS]
          have hresetkeys : ∀ k ∈ (resetSubtopicMastery s2 t
              inp.now).mastery_tracking.subtopics.map Prod.fst, k ∈ kgNames kg := by
            intro k hk
            simp only [resetSubtopicMastery] at hk
            rcases mem_keys_alSet _ t _ k hk with rfl | hmem
            · exact htmem
            · exact hkeys2 k hmem
          constructor
          · rw [hstep]
            unfold invB currentOkB sessionKeys
            simp only [Option.getD_some, canonicalName_self kg t hnd htmem, hresett]
            simp only [Bool.not_false, Bool.or_true, Bool.true_and]
            rw [List.all_eq_true]
            intro k hk
            simpa using hresetkeys k hk
          · intro S hS
            have hSq : S ≠ q := by
              intro h
              rw [h] at hS
              exact absurd hS (by simp [hqa])
            have hs2S : achievedB s2 S = true := by
              rw [hach2 S hSq]
              exact hS
            have hSt : S ≠ t := by
              intro h
              rw [h] at hs2S
              exact absurd hs2S (by simp [hta])
            rw [hstep]
            simp only
            rw [hresetne S hSt]
            exact hs2S
        | none =>
          have hgnq : getNextQuestion kg problems userTopic st.picker s2
              (some s2.mastery_tracking) [] [] inp.now inp.r1 inp.r2 =
              some ({ current_subtopic :=
                        some (st.picker.current_subtopic.getD userTopic)
                      asked_problems :=
                        if st.picker.current_subtopic.isSome then
                          st.picker.asked_problems else [] },
                s2,
                { completed := true
                  message :=
                    "Congratulations! You\x27ve mastered all subtopics! 🎉" }) := by
            simp [getNextQuestion, hci, hA, decide_eq_true hatt3, hnx]
          have hstep : stepTurn kg problems userTopic st inp =
              { session := s2
                picker := { current_subtopic :=
                              some (st.picker.current_subtopic.getD userTopic)
                            asked_problems :=
                              if st.picker.current_subtopic.isSome then
                                st.picker.asked_problems else [] }
                completed := true } := by
            simp only [stepTurn, hcf, Bool.false_eq_true, if_false, hq, hgnq]
          constructor
          · rw [hstep]
            unfold invB
            simp
            exact fun x hx => hkeys2 x hx
          · intro S hS
            have hSq : S ≠ q := by
              intro h
              rw [h] at hS
              exact absurd hS (by simp [hqa])
            rw [hstep]
            simp only
            rw [hach2 S hSq]
            exact hS
      · have hAf : entryQ.mastery_achieved = false := Bool.eq_false_iff.2 hA
        obtain ⟨out, hout⟩ := pickFromSubtopic_isSome kg problems
          (st.picker.current_subtopic.getD userTopic)
          (if st.picker.current_subtopic.isSome then st.picker.asked_problems else [])
          entryQ.mastery_score (extractPriorityConcepts [] []) inp.r1 inp.r2
        have hgnq : getNextQuestion kg problems userTopic st.picker s2
            (some s2.mastery_tracking) [] [] inp.now inp.r1 inp.r2 =
            some ({ current_subtopic :=
                      some (st.picker.current_subtopic.getD userTopic)
                    asked_problems := out.1 }, s2, out.2) := by
          simp [getNextQuestion, hci, hAf, hout]
        have hstep : stepTurn kg problems userTopic st inp =
            { session := s2
              picker := { current_subtopic :=
                            some (st.picker.current_subtopic.getD userTopic)
                          asked_problems := out.1 }
              completed := out.2.completed } := by
          simp only [stepTurn, hcf, Bool.false_eq_true, if_false, hq, hgnq]
        have h2a : achievedB s2 q = false := by
          unfold achievedB
          rw [hq2]
          simpa using hAf
        constructor
        · rw [hstep]
          unfold invB currentOkB
          simp only [Option.getD_some, hq, h2a]
          simp
          exact fun x hx => hkeys2 x hx
        · intro S hS
          have hSq : S ≠ q := by
            intro h
            rw [h] at hS
            exact absurd hS (by simp [hqa])
          rw [hstep]
          simp only
          rw [hach2 S hSq]
          exact hS

/-- C2: along any run of Submit-Answer turns from a state satisfying the loop
invariant — which the session's initial state does — a subtopic whose
`mastery_achieved` flag is true keeps it forever: the flag becomes true only
for the subtopic currently practiced, after which the very same call advances
the cursor away (or ends the session), so no later attempt recording or
mastery-estimate update ever lands on it again, and the advance-time reset
only ever touches the not-yet-mastered subtopic being advanced to. -/
theorem c2_mastery_achieved_is_irreversible (kg : KnowledgeGraph)
    (problems : List Problem) (userTopic : String) (st : TutorTurnState)
    (inputs : List TurnInput) (S : String)
    (hnd : ((kgNames kg).map strLower).Nodup)
    (hinv : invB kg userTopic st = true)
    (hach : achievedB st.session S = true) :
    achievedB (runTurns kg problems userTopic st inputs).session S = true ∧
    invB kg userTopic (runTurns kg problems userTopic st inputs) = true ∧
    invB kg userTopic (initTurnState kg userTopic) = true := by
  have hinit : invB kg userTopic (initTurnState kg userTopic) = true := by
    cases hcn : canonicalName kg userTopic with
    | none =>
      simp [invB, initTurnState, currentOkB, hcn, sessionKeys, emptySessionData,
        emptyMasteryTracking]
    | some q =>
      simp [invB, initTurnState, currentOkB, hcn, sessionKeys, emptySessionData,
        emptyMasteryTracking, achievedB, alGet]
  suffices h : ∀ (inputs : List TurnInput) (st : TutorTurnState),
      invB kg userTopic st = true → achievedB st.session S = true →
      achievedB (runTurns kg problems userTopic st inputs).session S = true ∧
      invB kg userTopic (runTurns kg problems userTopic st inputs) = true by
    obtain ⟨h1, h2⟩ := h inputs st hinv hach
    exact ⟨h1, h2, hinit⟩
  intro inputs
  induction inputs with
  | nil =>
    intro st hinv' hach'
    exact ⟨hach', hinv'⟩
  | cons i t ih =>
    intro st hinv' hach'
    obtain ⟨hinv'', hmono⟩ := stepTurn_inv_mono kg problems userTopic st i hnd hinv'
    exact ih (stepTurn kg problems userTopic st i) hinv'' (hmono S hach')

/-- A turn input whose assessment reports no mastery — the kind of update
that would clear the flag if it could ever reach a mastered subtopic. -/
def exTurnInput : TurnInput :=
  { concept_mastery := [], subtopic_mastery := 0, assess_achieved := false
    weak_concepts := ["JOIN keys"], missing_concepts := ["ON clause"]
    now := "t5", r1 := 0, r2 := 0 }

/-- A mid-session state: "INNER JOIN" already mastered, cursor on
"OUTER JOIN". -/
def exTurnState : TutorTurnState :=
  { session := exMasteredSession
    picker := { current_subtopic := some "OUTER JOIN", asked_problems := [] }
    completed := false }

/-- Witness for C2: two further turns with non-achieving assessments leave
the mastered "INNER JOIN" flag set. -/
theorem c2_mastery_achieved_is_irreversible_witness :
    (((kgNames exKgTwo).map strLower).Nodup) ∧
    invB exKgTwo "outer join" exTurnState = true ∧
    achievedB exTurnState.session "INNER JOIN" = true ∧
    achievedB (runTurns exKgTwo [exProblem] "outer join" exTurnState
      [exTurnInput, exTurnInput]).session "INNER JOIN" = true :=
  ⟨by decide, by decide, by decide,
   (c2_mastery_achieved_is_irreversible exKgTwo [exProblem] "outer join"
     exTurnState [exTurnInput, exTurnInput] "INNER JOIN"
     (by decide) (by decide) (by decide)).1⟩
